import Mathlib

/-!
Verification of the market-analytics core of quant_intel_backend.

Shallow embedding conventions:
* Python/numpy floats are modelled as exact rationals (`ℚ`), except for the
  liquidity-vacuum model whose monotonicity property genuinely depends on the
  algebra of square roots and is therefore modelled over `ℝ` with `Real.sqrt`.
* Library transcendental primitives (`np.log`, `scipy.stats.norm.cdf`, the
  square root inside `np.std`) are threaded through as explicit function
  parameters (`rlog`, `cdf`, `rsqrt`): the properties proved below hold for
  every choice of these primitives, which is exactly what the code guarantees.
* `np.mean` of an empty array is NaN in numpy; wherever that can happen the
  embedding returns `Option ℚ` with `none` standing for NaN.
* OHLCV bars carry open/high/low/close/volume as rationals; timestamps are
  irrelevant to every computation modelled here and are omitted.
-/

/-- `np.mean` over a nonempty list (all call sites guarded by length checks). -/
def npMean (l : List ℚ) : ℚ := l.sum / (l.length : ℚ)

/-- `np.mean` of a boolean array, `none` when the array is empty (numpy NaN). -/
def npMeanBool (l : List Bool) : Option ℚ :=
  if l.isEmpty then none else some ((l.countP id : ℚ) / (l.length : ℚ))

/-- `np.diff`: consecutive differences `a[i+1] - a[i]`. -/
def npDiff (l : List ℚ) : List ℚ := List.zipWith (fun b a => b - a) l.tail l

/-- Population variance, `np.var` / the square of `np.std(·, ddof=0)`. -/
def npVarP (l : List ℚ) : ℚ := npMean (l.map (fun x => (x - npMean l) ^ 2))

/-- Sample variance (`ddof=1`), the square of `pandas.Series.std()`. -/
def sampleVar (l : List ℚ) : ℚ :=
  (l.map (fun x => (x - npMean l) ^ 2)).sum / ((l.length : ℚ) - 1)

-- ---------------------------------------------------------------------------
-- app/services/market_storm.py
-- ---------------------------------------------------------------------------

/-- `returns_from_prices` (market_storm.py:6-10): log returns of a price
series; empty when fewer than two prices.  `rlog` models `np.log`. -/
def returns_from_prices (rlog : ℚ → ℚ) (prices : List ℚ) : List ℚ :=
  if prices.length < 2 then [] else npDiff (prices.map rlog)

/-- `tail_probability_loss` (market_storm.py:12-34).  With fewer than 20
returns the empirical fraction of returns below `log(1 - t)` is used
(`np.mean` of a boolean array: NaN, i.e. `none`, when there are no returns);
otherwise a Normal approximation scaled to the horizon, clamped to [0,1].
`cdf` models `scipy.stats.norm.cdf`, `rsqrt` models `np.sqrt`. -/
def tail_probability_loss (rlog cdf rsqrt : ℚ → ℚ) (returns : List ℚ)
    (loss_threshold_pct : ℚ) (horizon_bars : ℕ) : Option ℚ :=
  if returns.length < 20 then
    npMeanBool (returns.map (fun r => decide (r < rlog (1 - loss_threshold_pct))))
  else
    let mu := npMean returns
    let sd := rsqrt (npVarP returns)
    let sigma := if 0 < sd then sd else 1 / 1000000
    let horizon_mu := (horizon_bars : ℚ) * mu
    let horizon_sigma := rsqrt (horizon_bars : ℚ) * sigma
    let z := (rlog (1 - loss_threshold_pct) - horizon_mu) / horizon_sigma
    some (max 0 (min 1 (cdf z)))

/-- `storm_probability` (market_storm.py:36-39): the `"storm_probability"`
entry of the returned dict. -/
def storm_probability (rlog cdf rsqrt : ℚ → ℚ) (prices : List ℚ)
    (loss_threshold_pct : ℚ) (horizon_bars : ℕ) : Option ℚ :=
  tail_probability_loss rlog cdf rsqrt (returns_from_prices rlog prices)
    loss_threshold_pct horizon_bars

theorem npDiff_length (l : List ℚ) : (npDiff l).length = l.length - 1 := by
  cases l with
  | nil => rfl
  | cons a t =>
    simp [npDiff, List.length_zipWith]

/-- C1 counterexample: on the single-bar series `[100]` there are no returns,
the empirical fallback takes `np.mean` of an empty array, and the returned
storm probability is NaN (modelled `none`) rather than a value in [0,1]. -/
theorem storm_probability_single_bar_nan :
    storm_probability id id id [100] (1 / 20) 3 = none := by
  decide

/-- C1 (amended): for every price series with at least two bars (hence at
least one return), any loss threshold in (0,1) and any horizon at least 1,
`storm_probability` returns an actual value (no NaN) lying in [0,1], for
every model of the library primitives log / normal-cdf / sqrt. -/
theorem storm_probability_mem_unit_interval (rlog cdf rsqrt : ℚ → ℚ)
    (prices : List ℚ) (t : ℚ) (h : ℕ)
    (hlen : 2 ≤ prices.length) (ht0 : 0 < t) (ht1 : t < 1) (hh : 1 ≤ h) :
    ∃ p, storm_probability rlog cdf rsqrt prices t h = some p ∧
      0 ≤ p ∧ p ≤ 1 := by
  have hret : (returns_from_prices rlog prices).length = prices.length - 1 := by
    unfold returns_from_prices
    rw [if_neg (by omega)]
    rw [npDiff_length, List.length_map]
  have hretpos : 0 < (returns_from_prices rlog prices).length := by omega
  unfold storm_probability tail_probability_loss
  by_cases hcase : (returns_from_prices rlog prices).length < 20
  · rw [if_pos hcase]
    set bl := (returns_from_prices rlog prices).map
      (fun r => decide (r < rlog (1 - t))) with hbl
    have hblpos : 0 < bl.length := by
      rw [hbl, List.length_map]; exact hretpos
    have hne : bl.isEmpty = false := by
      cases hb : bl with
      | nil => rw [hb] at hblpos; simp at hblpos
      | cons a l => rfl
    refine ⟨(bl.countP id : ℚ) / (bl.length : ℚ), ?_, ?_, ?_⟩
    · simp [npMeanBool, hne]
    · positivity
    · rw [div_le_one (by exact_mod_cast hblpos)]
      exact_mod_cast List.countP_le_length id
  · rw [if_neg hcase]
    refine ⟨_, rfl, le_max_left 0 _, ?_⟩
    exact max_le (by norm_num) (min_le_left 1 _)

/-- C1 witness: the spec scenario (8 prices, 5% threshold, 3-bar horizon)
satisfies the hypotheses, so the storm probability there is a value in
[0,1]. -/
theorem storm_probability_mem_unit_interval_witness :
    2 ≤ ([100, 99, 97, 95, 90, 85, 80, 70] : List ℚ).length ∧
      (0 : ℚ) < 1 / 20 ∧ (1 / 20 : ℚ) < 1 ∧ 1 ≤ 3 ∧
      ∃ p, storm_probability id id id [100, 99, 97, 95, 90, 85, 80, 70]
        (1 / 20) 3 = some p ∧ 0 ≤ p ∧ p ≤ 1 :=
  ⟨by decide, by norm_num, by norm_num, by norm_num,
    storm_probability_mem_unit_interval id id id _ _ _ (by decide)
      (by norm_num) (by norm_num) (by norm_num)⟩

-- ---------------------------------------------------------------------------
-- app/services/liquidity_vacuum.py
-- ---------------------------------------------------------------------------
-- The liquidity-vacuum model is embedded over ℝ because its monotonicity
-- property depends on the algebra of the square root inside `np.std`.

/-- `np.mean` over ℝ. -/
noncomputable def npMeanR (l : List ℝ) : ℝ := l.sum / (l.length : ℝ)

/-- Population variance over ℝ (the square of `np.std(·, ddof=0)`). -/
noncomputable def npVarR (l : List ℝ) : ℝ :=
  npMeanR (l.map (fun x => (x - npMeanR l) ^ 2))

/-- `np.std(·, ddof=0)` over ℝ. -/
noncomputable def npStdR (l : List ℝ) : ℝ := Real.sqrt (npVarR l)

/-- `compute_volume_z` (liquidity_vacuum.py:5-11): z-score of the most recent
volume against the whole window; 0 for windows shorter than 5; a zero
standard deviation is replaced by 1. -/
noncomputable def compute_volume_z (volume_series : List ℝ) : ℝ :=
  if volume_series.length < 5 then 0
  else
    let m := npMeanR volume_series
    let s := if 0 < npStdR volume_series then npStdR volume_series else 1
    (volume_series.getLast?.getD 0 - m) / s

/-- `liquidity_vacuum_score` (liquidity_vacuum.py:13-32): the `vacuum_score`
entry of the returned dict. -/
noncomputable def liquidity_vacuum_score (last_volumes : List ℝ)
    (bid_ask_spread_proxy : Option ℝ) : ℝ :=
  let vol_z := compute_volume_z last_volumes
  let vacuum_factor := max 0 (-vol_z) / 4
  let spread_factor :=
    match bid_ask_spread_proxy with
    | none => 0
    | some sp => min 1 (sp / (1 / 100))
  min 1 (vacuum_factor * (7 / 10) + spread_factor * (3 / 10))

theorem sum_sq_dev (l : List ℝ) (m : ℝ) :
    (l.map (fun x => (x - m) ^ 2)).sum =
      (l.map (fun x => x ^ 2)).sum - 2 * m * l.sum + (l.length : ℝ) * m ^ 2 := by
  induction l with
  | nil => simp
  | cons a t ih =>
    simp only [List.map_cons, List.sum_cons, List.length_cons, ih]
    push_cast
    ring

/-- The sum of squares dominates the squared sum (Cauchy-Schwarz for the
all-ones vector), in the form needed for nonnegativity of the variance. -/
theorem list_sq_sum_le_length_mul_sum_sq (l : List ℝ) :
    l.sum ^ 2 ≤ (l.length : ℝ) * (l.map (fun x => x ^ 2)).sum := by
  rcases Nat.eq_zero_or_pos l.length with h0 | hpos
  · rw [List.length_eq_zero] at h0
    simp [h0]
  · have hK : (0 : ℝ) < (l.length : ℝ) := by exact_mod_cast hpos
    have hnn : 0 ≤ (l.map (fun x => (x - l.sum / l.length) ^ 2)).sum := by
      apply List.sum_nonneg
      intro x hx
      rcases List.mem_map.mp hx with ⟨y, _, rfl⟩
      positivity
    rw [sum_sq_dev] at hnn
    have h1 : 0 ≤ (l.map (fun x => x ^ 2)).sum - l.sum ^ 2 / (l.length : ℝ) := by
      have e1 : 2 * (l.sum / l.length) * l.sum = 2 * (l.sum ^ 2 / l.length) := by
        field_simp; ring
      have e2 : (l.length : ℝ) * (l.sum / l.length) ^ 2 = l.sum ^ 2 / l.length := by
        field_simp; ring
      rw [e1, e2] at hnn
      linarith
    have e3 : (l.length : ℝ) * ((l.map (fun x => x ^ 2)).sum - l.sum ^ 2 / l.length) =
        (l.length : ℝ) * (l.map (fun x => x ^ 2)).sum - l.sum ^ 2 := by
      field_simp
      ring
    have h4 := mul_nonneg hK.le h1
    rw [e3] at h4
    linarith

/-- Core monotonicity of the guarded self-inclusive z-score
`u / (sqrt (a + u^2 / c))` (with the zero-σ guard replacing the denominator
by 1): it is monotone non-decreasing in `u` when `a ≥ 0`, `c > 0`. -/
theorem guarded_z_mono (a c u u' : ℝ) (ha : 0 ≤ a) (hc : 0 < c) (h : u ≤ u') :
    u / (if 0 < Real.sqrt (a + u ^ 2 / c) then Real.sqrt (a + u ^ 2 / c) else 1) ≤
      u' / (if 0 < Real.sqrt (a + u' ^ 2 / c) then Real.sqrt (a + u' ^ 2 / c) else 1) := by
  have hX : ∀ w : ℝ, 0 ≤ a + w ^ 2 / c := fun w => by positivity
  have hDpos : ∀ w : ℝ,
      0 < (if 0 < Real.sqrt (a + w ^ 2 / c) then Real.sqrt (a + w ^ 2 / c) else 1) := by
    intro w
    split
    · assumption
    · norm_num
  rcases le_or_lt u 0 with hu0 | hu0
  · rcases le_or_lt 0 u' with hu'0 | hu'0
    · -- sign split: z(u) ≤ 0 ≤ z(u')
      have hl : u / _ ≤ 0 := div_nonpos_iff.mpr (Or.inr ⟨hu0, (hDpos u).le⟩)
      have hr : 0 ≤ u' / _ := div_nonneg hu'0 (hDpos u').le
      exact hl.trans hr
    · -- both negative: denominators are genuine sqrts
      have huneg : u < 0 := lt_of_le_of_lt h hu'0
      have hu2 : 0 < u ^ 2 / c := div_pos (by nlinarith : (0:ℝ) < u ^ 2) hc
      have hu'2 : 0 < u' ^ 2 / c := div_pos (by nlinarith : (0:ℝ) < u' ^ 2) hc
      have hsu : 0 < Real.sqrt (a + u ^ 2 / c) := Real.sqrt_pos.mpr (by linarith)
      have hsu' : 0 < Real.sqrt (a + u' ^ 2 / c) := Real.sqrt_pos.mpr (by linarith)
      rw [if_pos hsu, if_pos hsu', div_le_div_iff hsu hsu']
      -- u * sqrt(a + u'^2/c) ≤ u' * sqrt(a + u^2/c), both sides ≤ 0
      have key : u' ^ 2 * (a + u ^ 2 / c) ≤ u ^ 2 * (a + u' ^ 2 / c) := by
        have husq : u' ^ 2 ≤ u ^ 2 := by nlinarith
        have hau : a * u' ^ 2 ≤ a * u ^ 2 := by nlinarith
        have e3 : u' ^ 2 * (a + u ^ 2 / c) = a * u' ^ 2 + u ^ 2 * u' ^ 2 / c := by
          ring
        have e4 : u ^ 2 * (a + u' ^ 2 / c) = a * u ^ 2 + u ^ 2 * u' ^ 2 / c := by
          ring
        rw [e3, e4]
        linarith
      have hs1 : (-u') * Real.sqrt (a + u ^ 2 / c) ≤ (-u) * Real.sqrt (a + u' ^ 2 / c) := by
        have e1 : (-u') * Real.sqrt (a + u ^ 2 / c) =
            Real.sqrt (u' ^ 2 * (a + u ^ 2 / c)) := by
          rw [Real.sqrt_mul (sq_nonneg u'), Real.sqrt_sq_eq_abs, abs_of_neg hu'0]
        have e2 : (-u) * Real.sqrt (a + u' ^ 2 / c) =
            Real.sqrt (u ^ 2 * (a + u' ^ 2 / c)) := by
          have hu0' : u < 0 := by linarith
          rw [Real.sqrt_mul (sq_nonneg u), Real.sqrt_sq_eq_abs, abs_of_neg hu0']
        rw [e1, e2]
        exact Real.sqrt_le_sqrt key
      nlinarith [hs1]
  · -- both positive
    have hu'0 : 0 < u' := lt_of_lt_of_le hu0 h
    have hsu : 0 < Real.sqrt (a + u ^ 2 / c) := by
      apply Real.sqrt_pos.mpr
      have : 0 < u ^ 2 / c := by positivity
      linarith
    have hsu' : 0 < Real.sqrt (a + u' ^ 2 / c) := by
      apply Real.sqrt_pos.mpr
      have : 0 < u' ^ 2 / c := by positivity
      linarith
    rw [if_pos hsu, if_pos hsu', div_le_div_iff hsu hsu']
    have key : u ^ 2 * (a + u' ^ 2 / c) ≤ u' ^ 2 * (a + u ^ 2 / c) := by
      have husq : u ^ 2 ≤ u' ^ 2 := by nlinarith
      have hau : a * u ^ 2 ≤ a * u' ^ 2 := by nlinarith
      have e3 : u ^ 2 * (a + u' ^ 2 / c) = a * u ^ 2 + u ^ 2 * u' ^ 2 / c := by
        ring
      have e4 : u' ^ 2 * (a + u ^ 2 / c) = a * u' ^ 2 + u ^ 2 * u' ^ 2 / c := by
        ring
      rw [e3, e4]
      linarith
    have e1 : u * Real.sqrt (a + u' ^ 2 / c) = Real.sqrt (u ^ 2 * (a + u' ^ 2 / c)) := by
      rw [Real.sqrt_mul (sq_nonneg u), Real.sqrt_sq_eq_abs, abs_of_pos hu0]
    have e2 : u' * Real.sqrt (a + u ^ 2 / c) = Real.sqrt (u' ^ 2 * (a + u ^ 2 / c)) := by
      rw [Real.sqrt_mul (sq_nonneg u'), Real.sqrt_sq_eq_abs, abs_of_pos hu'0]
    rw [e1, e2]
    exact Real.sqrt_le_sqrt key

/-- Self-inclusive variance identity: appending `v` to a window `ps` gives
variance `a + u²/k` with `a` the (nonnegative) contribution of `ps` and
`u = v - mean` the deviation of the new last element. -/
theorem npVarR_concat (ps : List ℝ) (v : ℝ) (hk : 0 < ps.length) :
    npVarR (ps ++ [v]) =
      ((ps.map (fun x => x ^ 2)).sum - ps.sum ^ 2 / (ps.length : ℝ)) / ((ps.length : ℝ) + 1) +
        (((ps.length : ℝ) * v - ps.sum) / ((ps.length : ℝ) + 1)) ^ 2 / (ps.length : ℝ) := by
  have hK : (0 : ℝ) < (ps.length : ℝ) := by exact_mod_cast hk
  have hN : (0 : ℝ) < (ps.length : ℝ) + 1 := by linarith
  unfold npVarR npMeanR
  rw [List.length_map, sum_sq_dev]
  simp only [List.map_append, List.map_cons, List.map_nil, List.sum_append,
    List.sum_cons, List.sum_nil, List.length_append, List.length_cons,
    List.length_nil]
  push_cast
  field_simp
  ring

/-- The mean of a window after appending a last element. -/
theorem npMeanR_concat (ps : List ℝ) (v : ℝ) :
    npMeanR (ps ++ [v]) = (ps.sum + v) / ((ps.length : ℝ) + 1) := by
  unfold npMeanR
  simp only [List.sum_append, List.sum_cons, List.sum_nil, List.length_append,
    List.length_cons, List.length_nil]
  push_cast
  ring_nf

/-- C7 helper: the self-inclusive volume z-score is monotone non-decreasing in
the last volume of the window, all other volumes held fixed. -/
theorem compute_volume_z_mono (ps : List ℝ) (v v' : ℝ)
    (hlen : 4 ≤ ps.length) (hv : v ≤ v') :
    compute_volume_z (ps ++ [v]) ≤ compute_volume_z (ps ++ [v']) := by
  have hk : 0 < ps.length := by omega
  have hK : (0 : ℝ) < (ps.length : ℝ) := by exact_mod_cast hk
  have hN : (0 : ℝ) < (ps.length : ℝ) + 1 := by linarith
  have hc : ∀ w : ℝ, ¬ ((ps ++ [w]).length < 5) := by
    intro w
    rw [List.length_append]
    simp only [List.length_cons, List.length_nil]
    omega
  have hlast : ∀ w : ℝ, (ps ++ [w]).getLast?.getD 0 = w := by
    intro w
    rw [List.getLast?_concat]
    rfl
  have hnum : ∀ w : ℝ, w - (ps.sum + w) / ((ps.length : ℝ) + 1) =
      ((ps.length : ℝ) * w - ps.sum) / ((ps.length : ℝ) + 1) := by
    intro w
    field_simp
    ring
  have ha : 0 ≤ ((ps.map (fun x => x ^ 2)).sum - ps.sum ^ 2 / (ps.length : ℝ)) /
      ((ps.length : ℝ) + 1) := by
    apply div_nonneg _ hN.le
    rw [sub_nonneg, div_le_iff hK]
    have := list_sq_sum_le_length_mul_sum_sq ps
    linarith
  have hu : ((ps.length : ℝ) * v - ps.sum) / ((ps.length : ℝ) + 1) ≤
      ((ps.length : ℝ) * v' - ps.sum) / ((ps.length : ℝ) + 1) := by
    gcongr
  unfold compute_volume_z npStdR
  rw [if_neg (hc v), if_neg (hc v')]
  simp only [hlast]
  rw [npMeanR_concat, npMeanR_concat, npVarR_concat ps v hk, npVarR_concat ps v' hk,
    hnum v, hnum v']
  exact guarded_z_mono _ _ _ _ ha hK hu

/-- C7: holding every volume of a window of at least 5 bars fixed except the
last one (and holding the optional spread proxy fixed), the liquidity-vacuum
score is monotone non-increasing in the latest bar's volume: a lower latest
volume never lowers the score. -/
theorem liquidity_vacuum_score_antitone_in_last_volume
    (ps : List ℝ) (v v' : ℝ) (spr : Option ℝ)
    (hlen : 4 ≤ ps.length) (hv : v ≤ v') :
    liquidity_vacuum_score (ps ++ [v']) spr ≤ liquidity_vacuum_score (ps ++ [v]) spr := by
  have hz := compute_volume_z_mono ps v v' hlen hv
  unfold liquidity_vacuum_score
  simp only
  gcongr

/-- C7 witness: the spec scenario volumes `[100,120,110,90]` with latest
volume 10 versus 20. -/
theorem liquidity_vacuum_score_antitone_witness :
    4 ≤ ([100, 120, 110, 90] : List ℝ).length ∧ ((10 : ℝ) ≤ 20) ∧
      liquidity_vacuum_score ([100, 120, 110, 90] ++ [(20 : ℝ)]) none ≤
        liquidity_vacuum_score ([100, 120, 110, 90] ++ [(10 : ℝ)]) none :=
  ⟨by decide, by norm_num,
    liquidity_vacuum_score_antitone_in_last_volume [100, 120, 110, 90] 10 20 none
      (by decide) (by norm_num)⟩

-- ---------------------------------------------------------------------------
-- OHLCV bars (canonical series shape shared by the ℚ-valued services)
-- ---------------------------------------------------------------------------

/-- One OHLCV bar.  `opn` is the `open` column (a Lean keyword). -/
structure Bar where
  opn : ℚ
  high : ℚ
  low : ℚ
  close : ℚ
  volume : ℚ
deriving DecidableEq

/-- The `prev_close` column: `df["close"].shift(1).fillna(df["close"])` — the
previous bar's close, with the first bar's previous close its own close. -/
def prev_closes (df : List Bar) : List ℚ :=
  match df with
  | [] => []
  | b :: _ => b.close :: (df.map Bar.close).dropLast

/-- `rolling(n).mean()` after `dropna()`: means of the full windows only. -/
def rollingMeanFull (n : ℕ) (l : List ℚ) : List ℚ :=
  if l.length < n then []
  else (List.range (l.length + 1 - n)).map (fun i => ((l.drop i).take n).sum / (n : ℚ))

-- ---------------------------------------------------------------------------
-- app/services/market_weather.py and app/services/regime_engine.py : ATR
-- ---------------------------------------------------------------------------

/-- Rowwise true range of market_weather.average_true_range: pandas takes the
max of `(high-low).abs()`, `(high-prev_close).abs()`, `(low-prev_close).abs()`. -/
def true_range_mw (b : Bar) (prev_close : ℚ) : ℚ :=
  max |b.high - b.low| (max |b.high - prev_close| |b.low - prev_close|)

/-- `average_true_range` (market_weather.py:80-92): last full-window rolling
mean of the true range, falling back to the last raw true range when no full
window exists; `none` only for an empty frame (where `iloc[-1]` raises). -/
def average_true_range (df : List Bar) (n : ℕ) : Option ℚ :=
  let tr := List.zipWith true_range_mw df (prev_closes df)
  let atr := rollingMeanFull n tr
  if atr.isEmpty then tr.getLast? else atr.getLast?

/-- Rowwise true range of regime_engine.average_true_range (no `.abs()` on
`high - low`). -/
def true_range_re (b : Bar) (prev_close : ℚ) : ℚ :=
  max (b.high - b.low) (max |b.high - prev_close| |b.low - prev_close|)

/-- `average_true_range` of regime_engine.py:46-55: same rolling mean but with
no fallback — `dropna().iloc[-1]` raises (modelled `none`) when fewer than `n`
true-range values exist. -/
def regime_average_true_range (df : List Bar) (n : ℕ) : Option ℚ :=
  (rollingMeanFull n (List.zipWith true_range_re df (prev_closes df))).getLast?

/-- Last value of the true-range column, walking the series with the running
previous close. -/
def lastTRWith (f : Bar → ℚ → ℚ) (pc : ℚ) : List Bar → Option ℚ
  | [] => none
  | [b] => some (f b pc)
  | b :: rest => lastTRWith f b.close rest

/-- The claim's formula (spec §4.2): most recent bar's true range
`max(high−low, |high−prevClose|, |low−prevClose|)`, the first bar's previous
close being its own close. -/
def spec_last_true_range (df : List Bar) : Option ℚ :=
  match df with
  | [] => none
  | b :: _ =>
    lastTRWith (fun x pc => max (x.high - x.low) (max |x.high - pc| |x.low - pc|))
      b.close df

theorem zipWith_prevClose_getLast (f : Bar → ℚ → ℚ) (df : List Bar) :
    ∀ pc : ℚ,
      (List.zipWith f df (pc :: (df.map Bar.close).dropLast)).getLast? =
        lastTRWith f pc df := by
  induction df with
  | nil => intro pc; rfl
  | cons b rest ih =>
    intro pc
    cases rest with
    | nil => rfl
    | cons c t =>
      have hmap : ((b :: c :: t).map Bar.close).dropLast =
          b.close :: ((c :: t).map Bar.close).dropLast := by
        simp
      rw [hmap]
      show (f b pc :: f c b.close ::
        List.zipWith f t (((c :: t).map Bar.close).dropLast)).getLast? = _
      rw [List.getLast?_cons_cons]
      exact ih b.close

theorem lastTRWith_congr (f g : Bar → ℚ → ℚ) :
    ∀ df : List Bar, (∀ b ∈ df, ∀ pc, f b pc = g b pc) →
      ∀ pc, lastTRWith f pc df = lastTRWith g pc df := by
  intro df
  induction df with
  | nil => intro _ pc; rfl
  | cons b rest ih =>
    intro h pc
    cases rest with
    | nil =>
      show some (f b pc) = some (g b pc)
      rw [h b (List.mem_cons_self b []) pc]
    | cons c t =>
      show lastTRWith f b.close (c :: t) = lastTRWith g b.close (c :: t)
      exact ih (fun x hx pc2 => h x (List.mem_cons_of_mem b hx) pc2) b.close

theorem lastTRWith_isSome (f : Bar → ℚ → ℚ) :
    ∀ df : List Bar, df ≠ [] → ∀ pc, ∃ q, lastTRWith f pc df = some q := by
  intro df
  induction df with
  | nil => intro h; exact absurd rfl h
  | cons b rest ih =>
    intro _ pc
    cases rest with
    | nil => exact ⟨f b pc, rfl⟩
    | cons c t => exact ih (List.cons_ne_nil c t) b.close

/-- C4 counterexample: the repository has two ATR implementations; the
regime_engine one has no short-history fallback, so on a 2-bar series its
`dropna().iloc[-1]` raises (modelled as `none`) instead of returning the most
recent true range. -/
theorem regime_average_true_range_short_raises :
    regime_average_true_range
      [⟨100, 110, 90, 105, 1000⟩, ⟨105, 112, 101, 108, 900⟩] 14 = none := by
  decide

/-- C4 (amended): for every non-empty well-formed (low ≤ high) series of
fewer than 14 bars, the market_weather ATR does not raise and returns exactly
the most recent bar's true range `max(high-low, |high-prevClose|,
|low-prevClose|)` (first bar's previous close is its own close), while the
duplicate regime_engine ATR yields no value (raises) on the same input. -/
theorem average_true_range_short_series (df : List Bar)
    (hne : df ≠ []) (hlen : df.length < 14) (hwf : ∀ b ∈ df, b.low ≤ b.high) :
    average_true_range df 14 = spec_last_true_range df ∧
      (∃ q, spec_last_true_range df = some q) ∧
      regime_average_true_range df 14 = none := by
  obtain ⟨b, rest, rfl⟩ := List.exists_cons_of_ne_nil hne
  have hpc : (prev_closes (b :: rest)).length = (b :: rest).length := by
    simp [prev_closes]
  have hroll : ∀ f : Bar → ℚ → ℚ,
      rollingMeanFull 14 (List.zipWith f (b :: rest) (prev_closes (b :: rest))) = [] := by
    intro f
    unfold rollingMeanFull
    rw [if_pos]
    rw [List.length_zipWith, hpc, Nat.min_self]
    exact hlen
  refine ⟨?_, ?_, ?_⟩
  · unfold average_true_range
    simp only [hroll true_range_mw, List.isEmpty_nil, if_true]
    rw [show prev_closes (b :: rest) =
      b.close :: ((b :: rest).map Bar.close).dropLast from rfl]
    rw [zipWith_prevClose_getLast]
    exact lastTRWith_congr _ _ (b :: rest)
      (fun x hx pc => by
        show max |x.high - x.low| (max |x.high - pc| |x.low - pc|) =
          max (x.high - x.low) (max |x.high - pc| |x.low - pc|)
        rw [abs_of_nonneg (sub_nonneg.mpr (hwf x hx))]) b.close
  · exact lastTRWith_isSome _ (b :: rest) (List.cons_ne_nil b rest) b.close
  · unfold regime_average_true_range
    rw [hroll true_range_re]
    rfl

/-- C4 witness: a concrete 2-bar well-formed series. -/
theorem average_true_range_short_series_witness :
    ([⟨100, 110, 90, 105, 1000⟩, ⟨105, 112, 101, 108, 900⟩] : List Bar) ≠ [] ∧
      ([⟨100, 110, 90, 105, 1000⟩, ⟨105, 112, 101, 108, 900⟩] : List Bar).length < 14 ∧
      average_true_range [⟨100, 110, 90, 105, 1000⟩, ⟨105, 112, 101, 108, 900⟩] 14 =
        spec_last_true_range [⟨100, 110, 90, 105, 1000⟩, ⟨105, 112, 101, 108, 900⟩] :=
  ⟨by decide, by decide,
    (average_true_range_short_series
      [⟨100, 110, 90, 105, 1000⟩, ⟨105, 112, 101, 108, 900⟩]
      (by decide) (by decide) (by decide)).1⟩

-- ---------------------------------------------------------------------------
-- app/services/pattern_recognition.py : detect_pump_and_dump
-- ---------------------------------------------------------------------------

/-- `df.tail(n)` in pandas: the last `n` rows (or values of a series). -/
def pandasTail {α : Type} (df : List α) (n : ℕ) : List α := df.drop (df.length - n)

/-- Result of a manipulation-pattern detector.  The source dict carries extra
diagnostic fields (window, percentages, phase); only the contract-relevant
`detected` and `confidence` are modelled. -/
structure PumpDumpResult where
  detected : Bool
  confidence : ℚ
deriving DecidableEq

/-- One iteration of the window loop of `detect_pump_and_dump`
(pattern_recognition.py:42-72): `some` when the loop returns, `none` when it
continues to the next window. -/
def pump_window_check (df : List Bar) (window : ℕ) : Option PumpDumpResult :=
  let recent := pandasTail df window
  let older := (pandasTail df (window * 2)).take window
  if recent.length < window ∨ older.length < window then none
  else
    let current_price := (recent.map Bar.close).getLast?.getD 0
    let older_close := (older.map Bar.close).getLast?.getD 0
    let price_change := (current_price - older_close) / older_close
    let max_price := (recent.map Bar.high).max?.getD 0
    let drawdown_from_max := (max_price - current_price) / max_price
    let volume_pump := npMean (recent.map Bar.volume)
    let volume_before := npMean (older.map Bar.volume)
    let volume_spike := if 0 < volume_before then volume_pump / volume_before else 1
    if price_change > 1 / 10 ∧ drawdown_from_max > 1 / 10 ∧ volume_spike > 2 then
      some ⟨true,
        min 1 ((price_change + drawdown_from_max + (volume_spike - 1) * (1 / 5)) / 3)⟩
    else none

/-- `detect_pump_and_dump` (pattern_recognition.py:26-74): series of fewer
than 20 bars are rejected outright; otherwise windows 5, 10, 15 are scanned
in order and the first hit is returned. -/
def detect_pump_and_dump (df : List Bar) : PumpDumpResult :=
  if df.length < 20 then ⟨false, 0⟩
  else
    match pump_window_check df 5 with
    | some r => r
    | none =>
      match pump_window_check df 10 with
      | some r => r
      | none =>
        match pump_window_check df 15 with
        | some r => r
        | none => ⟨false, 0⟩

theorem detect_pump_and_dump_short_series (df : List Bar)
    (hlen : df.length = 15) : detect_pump_and_dump df = ⟨false, 0⟩ := by
  unfold detect_pump_and_dump
  rw [if_pos (by omega)]

/-- C3 counterexample: the spec scenario itself — a 15-bar series rising 15%
over 5 bars on 3× the prior volume and then falling 12% from its peak —
comes back `detected=false` with confidence 0, because the detector rejects
every series shorter than 20 bars outright. -/
theorem detect_pump_and_dump_15bar_scenario_not_detected :
    detect_pump_and_dump
      (List.replicate 5 ⟨100, 100, 100, 100, 1000⟩ ++
        [⟨100, 103, 100, 103, 3000⟩, ⟨103, 106, 103, 106, 3000⟩,
         ⟨106, 109, 106, 109, 3000⟩, ⟨109, 112, 109, 112, 3000⟩,
         ⟨112, 115, 112, 115, 3000⟩,
         ⟨115, 115, 112, 112, 1500⟩, ⟨112, 112, 109, 109, 1500⟩,
         ⟨109, 109, 106, 106, 1500⟩, ⟨106, 106, 103, 103, 1500⟩,
         ⟨103, 103, 101, 506 / 5, 1500⟩]) = ⟨false, 0⟩ :=
  detect_pump_and_dump_short_series _ rfl

/-- A synthetic 20-bar series: 15 flat bars, then a 5-bar pump on 3× the
prior window's volume whose close ends more than 10% up while having fallen
12% from the intrabar peak high of 126. -/
def pump_series : List Bar :=
  List.replicate 15 ⟨100, 100, 100, 100, 1000⟩ ++
    [⟨100, 105, 100, 105, 3000⟩, ⟨105, 112, 105, 112, 3000⟩,
     ⟨112, 120, 112, 120, 3000⟩, ⟨120, 126, 120, 126, 3000⟩,
     ⟨126, 126, 110, 2772 / 25, 3000⟩]

unseal Rat.mul Rat.inv Rat.add Rat.sub in
/-- C3 (amended): the minimum history for the pump-and-dump detector is 20
bars, and the final close must simultaneously stand >10% above the prior
window's close and >10% below the recent window's peak high; for the
synthetic 20-bar series above (pump on 3× volume, 12% fall from the intrabar
peak) the detector fires with positive confidence. -/
theorem detect_pump_and_dump_20bar_series_detects :
    (detect_pump_and_dump pump_series).detected = true ∧
      0 < (detect_pump_and_dump pump_series).confidence := by
  decide

-- ---------------------------------------------------------------------------
-- app/services/institutional_flow.py : estimate_institutional_activity
-- ---------------------------------------------------------------------------

/-- `Series.pct_change().dropna()` in exact arithmetic: simple returns of
consecutive values.  This is faithful only when every previous value is
non-zero; in float semantics a zero previous value yields ±inf (or NaN for
0/0), and `dropna` removes only NaN.  The float-faithful version is
`pctChangeF` with `dropnaF` below, and `pctChangeF_eq_map` shows the two
agree on series with no zero values. -/
def pctChange (l : List ℚ) : List ℚ :=
  List.zipWith (fun b a => (b - a) / a) l.tail l

/-- `np.sign` on a rational. -/
def npSign (q : ℚ) : ℚ := if q < 0 then -1 else if q = 0 then 0 else 1

/-- Result of `estimate_institutional_activity`. -/
structure FlowResult where
  institutional_score : ℚ
  retail_score : ℚ
  dominant : String
deriving DecidableEq

/-- `estimate_institutional_activity` (institutional_flow.py:22-73).  `rsqrt`
models the square root inside `pandas.Series.std` (ddof=1).  The
`returns.std()` branch is unreachable under the 10-bar guard (a 10-bar frame
has 9 returns) but is embedded for faithfulness. -/
def estimate_institutional_activity (rsqrt : ℚ → ℚ) (df : List Bar) : FlowResult :=
  if df.length < 10 then ⟨1 / 2, 1 / 2, "unknown"⟩
  else
    let returns := pctChange (df.map Bar.close)
    let volatility :=
      if 5 ≤ returns.length then rsqrt (sampleVar (pandasTail returns 5))
      else rsqrt (sampleVar returns)
    let avg_volume := npMean (df.map Bar.volume)
    let recent_volume := npMean (pandasTail (df.map Bar.volume) 5)
    let volume_ratio := if 0 < avg_volume then recent_volume / avg_volume else 1
    let institutional_signal := volume_ratio * (1 - min 1 (volatility * 50))
    let price_changes := npDiff (df.map Bar.close)
    let direction_changes :=
      (List.zipWith (fun b a => decide (npSign b ≠ npSign a))
        price_changes.tail price_changes).countP id
    let choppiness := (direction_changes : ℚ) / ((max 1 (price_changes.length - 1) : ℕ) : ℚ)
    let retail_signal := volatility * 20 * choppiness
    let total := institutional_signal + retail_signal + 1 / 100
    let institutional_score := institutional_signal / total
    let retail_score := retail_signal / total
    ⟨institutional_score, retail_score,
      if retail_score < institutional_score then "institutional" else "retail"⟩

theorem sampleVar_nonneg (l : List ℚ) : 0 ≤ sampleVar l := by
  have hnum : 0 ≤ (l.map (fun x => (x - npMean l) ^ 2)).sum := by
    apply List.sum_nonneg
    intro x hx
    rcases List.mem_map.mp hx with ⟨y, _, rfl⟩
    positivity
  unfold sampleVar
  rcases Nat.lt_or_ge l.length 2 with h2 | h2
  · rcases Nat.lt_or_ge l.length 1 with h1 | h1
    · have h0 : l = [] := List.length_eq_zero.mp (by omega)
      subst h0
      norm_num
    · have h1' : l.length = 1 := by omega
      rw [h1']
      norm_num
  · apply div_nonneg hnum
    have h2' : (2 : ℚ) ≤ (l.length : ℚ) := by exact_mod_cast h2
    linarith

theorem npMean_nonneg (l : List ℚ) (h : ∀ x ∈ l, 0 ≤ x) : 0 ≤ npMean l := by
  unfold npMean
  apply div_nonneg (List.sum_nonneg h)
  exact_mod_cast Nat.zero_le l.length

/-- Score algebra of estimate_institutional_activity: with nonnegative
volume-ratio, volatility and choppiness, both normalized scores are
nonnegative, their sum is strictly below 1, and the dominant label is
`"institutional"` exactly when the institutional score is the larger. -/
theorem flow_scores_core (vr vol chop : ℚ)
    (hvr : 0 ≤ vr) (hvol : 0 ≤ vol) (hchop : 0 ≤ chop) :
    0 ≤ vr * (1 - min 1 (vol * 50)) /
        (vr * (1 - min 1 (vol * 50)) + vol * 20 * chop + 1 / 100) ∧
      0 ≤ vol * 20 * chop /
        (vr * (1 - min 1 (vol * 50)) + vol * 20 * chop + 1 / 100) ∧
      vr * (1 - min 1 (vol * 50)) /
          (vr * (1 - min 1 (vol * 50)) + vol * 20 * chop + 1 / 100) +
        vol * 20 * chop /
          (vr * (1 - min 1 (vol * 50)) + vol * 20 * chop + 1 / 100) < 1 ∧
      ((if vol * 20 * chop /
            (vr * (1 - min 1 (vol * 50)) + vol * 20 * chop + 1 / 100) <
          vr * (1 - min 1 (vol * 50)) /
            (vr * (1 - min 1 (vol * 50)) + vol * 20 * chop + 1 / 100)
          then "institutional" else "retail") = "institutional" ↔
        vol * 20 * chop /
            (vr * (1 - min 1 (vol * 50)) + vol * 20 * chop + 1 / 100) <
          vr * (1 - min 1 (vol * 50)) /
            (vr * (1 - min 1 (vol * 50)) + vol * 20 * chop + 1 / 100)) := by
  have hi : 0 ≤ vr * (1 - min 1 (vol * 50)) :=
    mul_nonneg hvr (sub_nonneg.mpr (min_le_left 1 _))
  have hr : 0 ≤ vol * 20 * chop := mul_nonneg (by linarith) hchop
  have htot : 0 < vr * (1 - min 1 (vol * 50)) + vol * 20 * chop + 1 / 100 := by
    linarith
  refine ⟨div_nonneg hi htot.le, div_nonneg hr htot.le, ?_, ?_⟩
  · rw [div_add_div_same, div_lt_one htot]
    linarith
  · split
    · next hcond => exact iff_of_true rfl hcond
    · next hcond => exact iff_of_false (by decide) hcond

/-- Exact-arithmetic core: for every OHLCV series with nonnegative volumes,
the ℚ model of `estimate_institutional_activity` returns the exact neutral
record (0.5, 0.5, "unknown") below 10 bars, and otherwise two nonnegative
scores summing to strictly less than 1 with `dominant = "institutional"`
exactly when the institutional score exceeds the retail score.  The ℚ model
agrees with the float-semantics model only under strictly positive closes
(`estimate_float_eq_floatify` below); with a zero close the program itself
produces NaN scores. -/
theorem estimate_institutional_activity_spec (rsqrt : ℚ → ℚ) (df : List Bar)
    (hs : ∀ q : ℚ, 0 ≤ q → 0 ≤ rsqrt q) (hv : ∀ b ∈ df, 0 ≤ b.volume) :
    (df.length < 10 →
        estimate_institutional_activity rsqrt df = ⟨1 / 2, 1 / 2, "unknown"⟩) ∧
      (10 ≤ df.length →
        0 ≤ (estimate_institutional_activity rsqrt df).institutional_score ∧
          0 ≤ (estimate_institutional_activity rsqrt df).retail_score ∧
          (estimate_institutional_activity rsqrt df).institutional_score +
              (estimate_institutional_activity rsqrt df).retail_score < 1 ∧
          ((estimate_institutional_activity rsqrt df).dominant = "institutional" ↔
            (estimate_institutional_activity rsqrt df).retail_score <
              (estimate_institutional_activity rsqrt df).institutional_score)) := by
  constructor
  · intro hlt
    unfold estimate_institutional_activity
    rw [if_pos hlt]
  · intro hge
    unfold estimate_institutional_activity
    rw [if_neg (by omega)]
    simp only []
    refine flow_scores_core _ _ _ ?_ ?_ ?_
    · split
      · next havg =>
        apply div_nonneg _ havg.le
        apply npMean_nonneg
        intro x hx
        have hx' : x ∈ df.map Bar.volume := List.mem_of_mem_drop hx
        rcases List.mem_map.mp hx' with ⟨b, hb, rfl⟩
        exact hv b hb
      · norm_num
    · split
      · exact hs _ (sampleVar_nonneg _)
      · exact hs _ (sampleVar_nonneg _)
    · positivity

/-- Companion evaluation of the exact-arithmetic core at a concrete 10-bar
series with nonnegative volumes, with `rsqrt` instantiated by the identity,
which preserves nonnegativity. -/
theorem estimate_institutional_activity_spec_witness :
    (∀ q : ℚ, 0 ≤ q → 0 ≤ id q) ∧
      (∀ b ∈ (List.replicate 10 (⟨100, 105, 95, 102, 1000⟩ : Bar)), 0 ≤ b.volume) ∧
      (10 ≤ (List.replicate 10 (⟨100, 105, 95, 102, 1000⟩ : Bar)).length →
        0 ≤ (estimate_institutional_activity id
              (List.replicate 10 (⟨100, 105, 95, 102, 1000⟩ : Bar))).institutional_score ∧
          0 ≤ (estimate_institutional_activity id
              (List.replicate 10 (⟨100, 105, 95, 102, 1000⟩ : Bar))).retail_score ∧
          (estimate_institutional_activity id
                (List.replicate 10 (⟨100, 105, 95, 102, 1000⟩ : Bar))).institutional_score +
              (estimate_institutional_activity id
                (List.replicate 10 (⟨100, 105, 95, 102, 1000⟩ : Bar))).retail_score < 1 ∧
          ((estimate_institutional_activity id
                (List.replicate 10 (⟨100, 105, 95, 102, 1000⟩ : Bar))).dominant =
              "institutional" ↔
            (estimate_institutional_activity id
                (List.replicate 10 (⟨100, 105, 95, 102, 1000⟩ : Bar))).retail_score <
              (estimate_institutional_activity id
                (List.replicate 10 (⟨100, 105, 95, 102, 1000⟩ : Bar))).institutional_score)) :=
  ⟨fun _ hq => hq, by decide,
    (estimate_institutional_activity_spec id
      (List.replicate 10 (⟨100, 105, 95, 102, 1000⟩ : Bar))
      (fun _ hq => hq) (by decide)).2⟩

-- ---------------------------------------------------------------------------
-- app/services/liquidity_drought.py
-- ---------------------------------------------------------------------------

/-- Population covariance `np.cov`-style numerator used by `np.corrcoef`. -/
def npCov (x y : List ℚ) : ℚ :=
  npMean (List.zipWith (fun a b => (a - npMean x) * (b - npMean y)) x y)

/-- `np.corrcoef(x, y)[0, 1]`: covariance over the product of deviations
(the ddof convention cancels in the ratio); `rsqrt` models the square root
inside `np.std`. -/
def npCorr (rsqrt : ℚ → ℚ) (x y : List ℚ) : ℚ :=
  npCov x y / (rsqrt (npVarP x) * rsqrt (npVarP y))

/-- `calculate_volume_decay_rate` (liquidity_drought.py:25-46). -/
def calculate_volume_decay_rate (rlog rsqrt : ℚ → ℚ) (volumes : List ℚ)
    (window : ℕ) : ℚ :=
  if volumes.length < window then 0
  else
    let recent := pandasTail volumes window
    if recent.length < 2 then 0
    else
      let x := (List.range recent.length).map (fun i => (i : ℚ))
      let y := recent.map (fun v => rlog (v + 1))
      if rsqrt (npVarP x) = 0 then 0
      else -(npCorr rsqrt x y * rsqrt (npVarP y) / rsqrt (npVarP x))

/-- `calculate_volume_concentration` (liquidity_drought.py:49-64): clamped
Gini coefficient of the last 20 volumes. -/
def calculate_volume_concentration (df : List Bar) (window : ℕ) : ℚ :=
  let volumes := pandasTail (df.map Bar.volume) window
  if volumes.length = 0 ∨ volumes.sum = 0 then 0
  else
    let sorted_v := volumes.insertionSort (· ≤ ·)
    let n := sorted_v.length
    let weighted := (List.zipWith (fun i v => (i : ℚ) * v)
      (List.range' 1 n) sorted_v).sum
    let gini := 2 * weighted / ((n : ℚ) * sorted_v.sum) - ((n : ℚ) + 1) / (n : ℚ)
    max 0 (min 1 gini)

/-- `calculate_volatility_volume_ratio` (liquidity_drought.py:67-90). -/
def calculate_volatility_volume_ratio (rsqrt : ℚ → ℚ) (df : List Bar)
    (window : ℕ) : ℚ :=
  if df.length < window then 0
  else
    let recent := pandasTail df window
    let returns := pctChange (recent.map Bar.close)
    if returns.isEmpty then 0
    else
      let volatility := rsqrt (sampleVar returns)
      let avg_volume := npMean (recent.map Bar.volume)
      if avg_volume = 0 then 1
      else
        let price := (recent.map Bar.close).getLast?.getD 0
        let normalized_volume := if 0 < price then avg_volume / price else avg_volume
        min 1 (volatility / (normalized_volume / 1000000 + 1 / 1000))

/-- `calculate_price_gap_frequency` (liquidity_drought.py:93-106): fraction
of bars whose open deviates more than `threshold` from the prior close. -/
def calculate_price_gap_frequency (df : List Bar) (threshold : ℚ) : ℚ :=
  if df.length < 2 then 0
  else
    let opens := (df.map Bar.opn).tail
    let closes_prev := (df.map Bar.close).dropLast
    let gaps := List.zipWith (fun o c => |o - c| / (c + 1 / 1000)) opens closes_prev
    let gap_count := gaps.countP (fun g => decide (g > threshold))
    if 0 < gaps.length then (gap_count : ℚ) / (gaps.length : ℚ) else 0

/-- `calculate_spread_proxy` (liquidity_drought.py:109-123). -/
def calculate_spread_proxy (df : List Bar) (window : ℕ) : ℚ :=
  if df.length < window then 0
  else
    let recent := pandasTail df window
    npMean (recent.map (fun b => (b.high - b.low) / b.close))

/-- The five component scores reported by `predict_liquidity_drought`. -/
structure DroughtComponents where
  volume_decay_rate : ℚ
  volume_concentration : ℚ
  volatility_volume_ratio : ℚ
  gap_frequency : ℚ
  spread_proxy : ℚ
deriving DecidableEq

/-- The contract-relevant fields of the `predict_liquidity_drought` report. -/
structure DroughtReport where
  drought_probability : ℚ
  risk_level : String
  components : DroughtComponents
  volume_trend : String
deriving DecidableEq

/-- `predict_liquidity_drought` (liquidity_drought.py:130-214) after the
fetch: the pure computation on the fetched frame (`none` models
`Result.Fail` on a missing/empty frame; symbol, timestamp and advisory
strings are orthogonal to the claims and omitted). -/
def predict_liquidity_drought_core (rlog rsqrt : ℚ → ℚ) (df : List Bar) :
    Option DroughtReport :=
  if df.isEmpty then none
  else
    let volumes := df.map Bar.volume
    let decay_rate := calculate_volume_decay_rate rlog rsqrt volumes 10
    let concentration := calculate_volume_concentration df 20
    let vol_ratio := calculate_volatility_volume_ratio rsqrt df 14
    let gap_freq := calculate_price_gap_frequency df (1 / 50)
    let spread_proxy := calculate_spread_proxy df 14
    let spread_norm := min 1 (spread_proxy / (1 / 20))
    let drought_probability :=
      max 0 (min 1 (decay_rate * (1 / 4) + concentration * (3 / 20) +
        vol_ratio * (1 / 4) + gap_freq * (1 / 5) + spread_norm * (3 / 20)))
    let risk_level :=
      if drought_probability > 7 / 10 then "CRITICAL"
      else if drought_probability > 1 / 2 then "HIGH"
      else if drought_probability > 3 / 10 then "MODERATE"
      else "LOW"
    let recent_avg_vol := npMean (pandasTail volumes 5)
    let older_avg_vol := npMean ((pandasTail volumes 20).take 15)
    let volume_trend :=
      if recent_avg_vol < older_avg_vol * (7 / 10) then "DECLINING"
      else if recent_avg_vol > older_avg_vol * (13 / 10) then "INCREASING"
      else "STABLE"
    some ⟨drought_probability, risk_level,
      ⟨decay_rate, concentration, vol_ratio, gap_freq, spread_proxy⟩, volume_trend⟩

theorem gap_frequency_bounds (df : List Bar) (t : ℚ) :
    0 ≤ calculate_price_gap_frequency df t ∧ calculate_price_gap_frequency df t ≤ 1 := by
  unfold calculate_price_gap_frequency
  split
  · norm_num
  · simp only []
    split
    · next hpos =>
      constructor
      · positivity
      · rw [div_le_one (by exact_mod_cast hpos)]
        exact_mod_cast List.countP_le_length _
    · norm_num

theorem volume_concentration_two (b1 b2 : Bar)
    (h1 : 0 ≤ b1.volume) (h2 : 0 ≤ b2.volume) :
    0 ≤ calculate_volume_concentration [b1, b2] 20 ∧
      calculate_volume_concentration [b1, b2] 20 ≤ 1 / 2 := by
  have hgen : ∀ x y : ℚ, 0 ≤ x → 0 ≤ y →
      2 * (List.zipWith (fun i v => (i : ℚ) * v) (List.range' 1 ([x, y]).length)
          [x, y]).sum / ((([x, y]).length : ℚ) * ([x, y]).sum) -
        ((([x, y]).length : ℚ) + 1) / (([x, y]).length : ℚ) ≤ 1 / 2 := by
    intro x y hx hy
    rcases eq_or_lt_of_le (add_nonneg hx hy) with hs | hs
    · rw [show ([x, y] : List ℚ).sum = x + y by simp, ← hs]
      norm_num
    · have hz : (List.zipWith (fun i v => (i : ℚ) * v)
          (List.range' 1 ([x, y] : List ℚ).length) [x, y]).sum = x + 2 * y := by
        norm_num [List.range']
      rw [hz]
      have hsum : ([x, y] : List ℚ).sum = x + y := by simp
      rw [hsum]
      have hlen : ((([x, y] : List ℚ).length : ℚ)) = 2 := by norm_num
      rw [hlen]
      rw [sub_le_iff_le_add, div_le_iff (by linarith : (0:ℚ) < 2 * (x + y))]
      ring_nf
      nlinarith
  have hred : calculate_volume_concentration [b1, b2] 20 =
      if ([b1.volume, b2.volume] : List ℚ).length = 0 ∨
          ([b1.volume, b2.volume] : List ℚ).sum = 0 then 0
      else
        max 0 (min 1
          (2 * (List.zipWith (fun i v => (i : ℚ) * v)
              (List.range' 1 (List.insertionSort (· ≤ ·) [b1.volume, b2.volume]).length)
              (List.insertionSort (· ≤ ·) [b1.volume, b2.volume])).sum /
            (((List.insertionSort (· ≤ ·) [b1.volume, b2.volume]).length : ℚ) *
              (List.insertionSort (· ≤ ·) [b1.volume, b2.volume]).sum) -
            (((List.insertionSort (· ≤ ·) [b1.volume, b2.volume]).length : ℚ) + 1) /
              ((List.insertionSort (· ≤ ·) [b1.volume, b2.volume]).length : ℚ))) := rfl
  rw [hred]
  have hsort : List.insertionSort (· ≤ ·) [b1.volume, b2.volume] =
      if b1.volume ≤ b2.volume then [b1.volume, b2.volume]
      else [b2.volume, b1.volume] := by
    simp [List.insertionSort, List.orderedInsert]
  by_cases hcond : ([b1.volume, b2.volume] : List ℚ).length = 0 ∨
      ([b1.volume, b2.volume] : List ℚ).sum = 0
  · rw [if_pos hcond]
    norm_num
  · rw [if_neg hcond, hsort]
    by_cases hle : b1.volume ≤ b2.volume
    · rw [if_pos hle]
      exact ⟨le_max_left 0 _,
        max_le (by norm_num)
          (le_trans (min_le_right 1 _) (hgen b1.volume b2.volume h1 h2))⟩
    · rw [if_neg hle]
      exact ⟨le_max_left 0 _,
        max_le (by norm_num)
          (le_trans (min_le_right 1 _) (hgen b2.volume b1.volume h2 h1))⟩

theorem drought_prob_bound (d c v g s : ℚ) (hd : d = 0) (hv : v = 0) (hs : s = 0)
    (hc0 : 0 ≤ c) (hc1 : c ≤ 1 / 2) (hg0 : 0 ≤ g) (hg1 : g ≤ 1) :
    max 0 (min 1 (d * (1 / 4) + c * (3 / 20) + v * (1 / 4) + g * (1 / 5) +
      min 1 (s / (1 / 20)) * (3 / 20))) ≤ 11 / 40 := by
  subst hd hv hs
  have hX : (0 : ℚ) * (1 / 4) + c * (3 / 20) + 0 * (1 / 4) + g * (1 / 5) +
      min 1 ((0 : ℚ) / (1 / 20)) * (3 / 20) ≤ 11 / 40 := by
    norm_num
    nlinarith
  exact max_le (by norm_num) (le_trans (min_le_right 1 _) hX)

theorem risk_low_of_le (dp : ℚ) (h : dp ≤ 11 / 40) :
    (if dp > 7 / 10 then "CRITICAL"
     else if dp > 1 / 2 then "HIGH"
     else if dp > 3 / 10 then "MODERATE"
     else "LOW") = "LOW" := by
  rw [if_neg (by push_neg; linarith), if_neg (by push_neg; linarith),
    if_neg (by push_neg; linarith)]

unseal Rat.mul Rat.inv Rat.add Rat.sub in
/-- C5 counterexample: a 2-bar series with a >2% open gap makes the reported
`gap_frequency` component equal to 1, not the documented neutral default 0 —
the gap-frequency guard admits any series of at least 2 bars. -/
theorem predict_liquidity_drought_2bar_gap_not_default :
    (predict_liquidity_drought_core id id
        [⟨100, 101, 99, 100, 10⟩, ⟨90, 95, 89, 94, 1000⟩]).map
      (fun rep => rep.components.gap_frequency) = some 1 := by
  decide

/-- C5 (amended): a 2-bar series never raises; the volume-decay,
volatility/volume and spread components return their 0 defaults, but volume
concentration and gap frequency are genuinely computed from the two bars (and
can be non-zero); nevertheless the drought probability is at most 0.275, so
the risk tier is always LOW. -/
theorem predict_liquidity_drought_2bar_low (rlog rsqrt : ℚ → ℚ) (b1 b2 : Bar)
    (h1 : 0 ≤ b1.volume) (h2 : 0 ≤ b2.volume) :
    ∃ rep, predict_liquidity_drought_core rlog rsqrt [b1, b2] = some rep ∧
      rep.components.volume_decay_rate = 0 ∧
      rep.components.volatility_volume_ratio = 0 ∧
      rep.components.spread_proxy = 0 ∧
      rep.drought_probability ≤ 11 / 40 ∧
      rep.risk_level = "LOW" := by
  have hdecay : calculate_volume_decay_rate rlog rsqrt
      ([b1, b2].map Bar.volume) 10 = 0 := rfl
  have hvr : calculate_volatility_volume_ratio rsqrt [b1, b2] 14 = 0 := rfl
  have hsp : calculate_spread_proxy [b1, b2] 14 = 0 := rfl
  obtain ⟨hg0, hg1⟩ := gap_frequency_bounds [b1, b2] (1 / 50)
  obtain ⟨hc0, hc1⟩ := volume_concentration_two b1 b2 h1 h2
  have hdp := drought_prob_bound
    (calculate_volume_decay_rate rlog rsqrt ([b1, b2].map Bar.volume) 10)
    (calculate_volume_concentration [b1, b2] 20)
    (calculate_volatility_volume_ratio rsqrt [b1, b2] 14)
    (calculate_price_gap_frequency [b1, b2] (1 / 50))
    (calculate_spread_proxy [b1, b2] 14)
    hdecay hvr hsp hc0 hc1 hg0 hg1
  refine ⟨_, rfl, hdecay, hvr, hsp, hdp, ?_⟩
  exact risk_low_of_le _ hdp

/-- C5 witness: the concrete 2-bar gapped series satisfies the nonnegative
volume hypotheses, so its report is LOW with the three defaulted components. -/
theorem predict_liquidity_drought_2bar_low_witness :
    (0 : ℚ) ≤ (Bar.mk 100 101 99 100 10).volume ∧
      (0 : ℚ) ≤ (Bar.mk 90 95 89 94 1000).volume ∧
      ∃ rep, predict_liquidity_drought_core id id
          [Bar.mk 100 101 99 100 10, Bar.mk 90 95 89 94 1000] = some rep ∧
        rep.components.volume_decay_rate = 0 ∧
        rep.components.volatility_volume_ratio = 0 ∧
        rep.components.spread_proxy = 0 ∧
        rep.drought_probability ≤ 11 / 40 ∧
        rep.risk_level = "LOW" :=
  ⟨by decide, by decide,
    predict_liquidity_drought_2bar_low id id _ _ (by decide) (by decide)⟩

-- ---------------------------------------------------------------------------
-- app/services/portfolio_stress.py
-- ---------------------------------------------------------------------------

/-- Python `dict.get`: first match in an association list. -/
def alistGet? {α : Type} (m : List (String × α)) (k : String) : Option α :=
  (m.find? (fun p => p.1 == k)).map Prod.snd

/-- One entry of the HISTORICAL_CRISES table (portfolio_stress.py:24-73).
Names, dates and descriptions are constant strings orthogonal to the claims
and omitted. -/
structure Crisis where
  crisis_id : String
  nifty_drawdown : ℚ
  recovery_months : ℚ
deriving DecidableEq

def HISTORICAL_CRISES : List Crisis :=
  [⟨"2008_financial_crisis", -61, 24⟩,
   ⟨"2011_eurozone_crisis", -28, 12⟩,
   ⟨"2015_china_crash", -23, 10⟩,
   ⟨"2016_demonetization", -8, 2⟩,
   ⟨"2020_covid_crash", -38, 8⟩,
   ⟨"2022_russia_ukraine", -12, 4⟩]

/-- SECTOR_SENSITIVITY (portfolio_stress.py:76-105). -/
def SECTOR_SENSITIVITY : List (String × List (String × ℚ)) :=
  [("banking", [("2008_financial_crisis", 3 / 2), ("2020_covid_crash", 13 / 10),
    ("2016_demonetization", 7 / 5), ("default", 1)]),
   ("it", [("2008_financial_crisis", 6 / 5), ("2020_covid_crash", 7 / 10),
    ("default", 9 / 10)]),
   ("pharma", [("2020_covid_crash", 1 / 2), ("default", 4 / 5)]),
   ("metals", [("2015_china_crash", 3 / 2), ("2022_russia_ukraine", 13 / 10),
    ("default", 11 / 10)]),
   ("auto", [("2016_demonetization", 3 / 2), ("2020_covid_crash", 7 / 5),
    ("default", 1)]),
   ("fmcg", [("default", 7 / 10)])]

/-- STOCK_SECTORS (portfolio_stress.py:108-116). -/
def STOCK_SECTORS : List (String × String) :=
  [("HDFCBANK.NS", "banking"), ("ICICIBANK.NS", "banking"), ("SBIN.NS", "banking"),
   ("TCS.NS", "it"), ("INFY.NS", "it"), ("WIPRO.NS", "it"),
   ("SUNPHARMA.NS", "pharma"), ("DRREDDY.NS", "pharma"), ("CIPLA.NS", "pharma"),
   ("TATASTEEL.NS", "metals"), ("HINDALCO.NS", "metals"),
   ("MARUTI.NS", "auto"), ("TATAMOTORS.NS", "auto"),
   ("HINDUNILVR.NS", "fmcg"), ("ITC.NS", "fmcg"),
   ("RELIANCE.NS", "conglomerate")]

/-- Python `str.upper()` on the ASCII ticker symbols used here. -/
def pyUpper (s : String) : String := ⟨s.data.map Char.toUpper⟩

/-- `get_stock_sector` (portfolio_stress.py:119-121). -/
def get_stock_sector (symbol : String) : String :=
  (alistGet? STOCK_SECTORS (pyUpper symbol)).getD "unknown"

/-- The fields of the `calculate_crisis_impact` dict used downstream. -/
structure CrisisImpact where
  crisis_id : String
  base_market_drawdown : ℚ
  sector : String
  sector_sensitivity : ℚ
  adjusted_drawdown_pct : ℚ
  estimated_bottom_value : ℚ
  estimated_loss : ℚ
  recovery_months : ℚ
deriving DecidableEq

/-- `calculate_crisis_impact` (portfolio_stress.py:124-163); `none` models the
`{"error": "Unknown crisis"}` dict. -/
def calculate_crisis_impact (symbol : String) (crisis_id : String)
    (portfolio_value : ℚ) : Option CrisisImpact :=
  match HISTORICAL_CRISES.find? (fun c => c.crisis_id == crisis_id) with
  | none => none
  | some crisis =>
    let base_drawdown := crisis.nifty_drawdown
    let sector := get_stock_sector symbol
    let sensitivity_map := (alistGet? SECTOR_SENSITIVITY sector).getD
      ((alistGet? SECTOR_SENSITIVITY "fmcg").getD [])
    let sensitivity := (alistGet? sensitivity_map crisis_id).getD
      ((alistGet? sensitivity_map "default").getD 1)
    let adjusted_drawdown := base_drawdown * sensitivity
    let value_at_bottom := portfolio_value * (1 + adjusted_drawdown / 100)
    let loss := portfolio_value - value_at_bottom
    some ⟨crisis_id, base_drawdown, sector, sensitivity, adjusted_drawdown,
      value_at_bottom, loss, crisis.recovery_months⟩

/-- Weight defaulting and normalization of `run_full_stress_test`
(portfolio_stress.py:183-188). -/
def stress_normalized_weights (symbols : List String)
    (weights : Option (List ℚ)) : List ℚ :=
  let ws :=
    match weights with
    | none => List.replicate symbols.length (1 / (symbols.length : ℚ))
    | some ws => ws
  let total_weight := ws.sum
  ws.map (fun w => w / total_weight)

structure Holding where
  symbol : String
  weight : ℚ
  value : ℚ
  current_price : ℚ
  sector : String
deriving DecidableEq

structure CrisisResult where
  crisis_id : String
  portfolio_drawdown_pct : ℚ
  estimated_loss : ℚ
  recovery_months : ℚ
deriving DecidableEq

/-- The fields of the stress-test report needed by the claims. -/
structure StressReport where
  holdings : List Holding
  crisis_results : List CrisisResult
deriving DecidableEq

/-- `run_full_stress_test` (portfolio_stress.py:166-297).  `fetchClose`
models `_fetch_ohlcv` followed by `df["close"].iloc[-1]` (`none` = no data:
the symbol is skipped).  The table lookups inside the per-crisis loop always
succeed, so the `.getD 0` default is never taken.  The crisis results are
reported sorted ascending by portfolio drawdown, as `list.sort` is stable.
Summary and recommendation fields are derived from these and omitted. -/
def run_full_stress_test (fetchClose : String → Option ℚ)
    (symbols : List String) (weights : Option (List ℚ))
    (portfolio_value : ℚ) : Option StressReport :=
  if symbols.isEmpty then none
  else
    let ws := stress_normalized_weights symbols weights
    let portfolio_holdings := (symbols.zip ws).filterMap (fun p =>
      match fetchClose p.1 with
      | none => none
      | some price =>
        some ⟨p.1, p.2, portfolio_value * p.2, price, get_stock_sector p.1⟩)
    if portfolio_holdings.isEmpty then none
    else
      let crisis_results := HISTORICAL_CRISES.map (fun crisis =>
        let losses := portfolio_holdings.map (fun h =>
          ((calculate_crisis_impact h.symbol crisis.crisis_id h.value).map
            CrisisImpact.estimated_loss).getD 0)
        let total_portfolio_loss := losses.sum
        CrisisResult.mk crisis.crisis_id
          (total_portfolio_loss / portfolio_value * 100)
          total_portfolio_loss crisis.recovery_months)
      let sorted_results := crisis_results.insertionSort
        (fun a b => a.portfolio_drawdown_pct ≤ b.portfolio_drawdown_pct)
      some ⟨portfolio_holdings, sorted_results⟩

theorem list_sum_map_div (l : List ℚ) (t : ℚ) :
    (l.map (fun w => w / t)).sum = l.sum / t := by
  induction l with
  | nil => simp
  | cons a tl ih => simp [ih, add_div]

/-- C6: the normalized weights of the portfolio stress test sum to exactly 1
(hence trivially to 1 within 1e-9) for every non-empty symbol list, whenever
an explicit weight list of matching length has non-zero sum, and also when the
weights are omitted (equal-weight default). -/
theorem stress_normalized_weights_sum_one (symbols : List String)
    (weights : Option (List ℚ)) (hne : symbols ≠ [])
    (hws : ∀ ws, weights = some ws →
      ws.length = symbols.length ∧ ws.sum ≠ 0) :
    (stress_normalized_weights symbols weights).sum = 1 ∧
      |(stress_normalized_weights symbols weights).sum - 1| ≤ 1 / 1000000000 := by
  have key : (stress_normalized_weights symbols weights).sum = 1 := by
    unfold stress_normalized_weights
    cases weights with
    | none =>
      simp only []
      rw [list_sum_map_div, List.sum_replicate, nsmul_eq_mul]
      have hn : (0 : ℚ) < (symbols.length : ℚ) := by
        have := List.length_pos.mpr hne
        exact_mod_cast this
      field_simp
    | some ws =>
      obtain ⟨-, hsum⟩ := hws ws rfl
      simp only []
      rw [list_sum_map_div, div_self hsum]
  exact ⟨key, by rw [key]; norm_num⟩

/-- C6 witness: two symbols with weights `[3, 1]` (sum 4, any scale). -/
theorem stress_normalized_weights_sum_one_witness :
    (["AAA", "BBB"] : List String) ≠ [] ∧
      (stress_normalized_weights ["AAA", "BBB"] (some [3, 1])).sum = 1 :=
  ⟨by decide,
    (stress_normalized_weights_sum_one ["AAA", "BBB"] (some [3, 1]) (by decide)
      (by
        intro ws h
        injection h with h2
        subst h2
        refine ⟨rfl, by norm_num⟩)).1⟩

unseal Rat.mul Rat.inv Rat.add Rat.sub in
theorem sector_sensitivity_unknown_lookup :
    (alistGet? SECTOR_SENSITIVITY "unknown").getD
      ((alistGet? SECTOR_SENSITIVITY "fmcg").getD []) = [("default", 7 / 10)] := by
  decide

theorem default_map_lookup (cid : String) :
    (alistGet? [("default", (7 : ℚ) / 10)] cid).getD
      ((alistGet? [("default", (7 : ℚ) / 10)] "default").getD 1) = 7 / 10 := by
  unfold alistGet?
  cases hbe : (("default", (7 : ℚ) / 10).1 == cid)
  · simp [List.find?, hbe]
  · simp [List.find?, hbe]

unseal Rat.mul Rat.inv Rat.add Rat.sub in
theorem historical_crises_find_self (crisis : Crisis)
    (hmem : crisis ∈ HISTORICAL_CRISES) :
    HISTORICAL_CRISES.find? (fun c => c.crisis_id == crisis.crisis_id) =
      some crisis := by
  fin_cases hmem <;> decide

/-- For a symbol of unknown sector the fallback sensitivity map is fmcg's,
whose default multiplier is 0.7, so the estimated loss of every crisis is
`-(value * 0.7 * base / 100)`. -/
theorem calculate_crisis_impact_unknown_loss (sym : String) (v : ℚ)
    (crisis : Crisis) (hsec : get_stock_sector sym = "unknown")
    (hfind : HISTORICAL_CRISES.find? (fun c => c.crisis_id == crisis.crisis_id) =
      some crisis) :
    (calculate_crisis_impact sym crisis.crisis_id v).map
        CrisisImpact.estimated_loss =
      some (-(v * (crisis.nifty_drawdown * (7 / 10)) / 100)) := by
  unfold calculate_crisis_impact
  rw [hfind]
  simp only [hsec, sector_sensitivity_unknown_lookup, default_map_lookup,
    Option.map_some']
  rw [Option.some.injEq]
  ring

unseal Rat.mul Rat.inv Rat.add Rat.sub in
/-- C2 counterexample: one symbol of unknown sector, weights omitted, value
100000 — the 2008 crisis entry reports a portfolio drawdown of +42.7
(0.7 × 61, the fmcg-default sensitivity and a sign flip), not the published
base market drawdown −61. -/
theorem run_full_stress_test_unknown_sector_base_mismatch :
    ((run_full_stress_test (fun _ => some 100) ["ZZZ"] none 100000).map
        (fun r => (r.crisis_results.find?
            (fun c => c.crisis_id == "2008_financial_crisis")).map
          (fun c => c.portfolio_drawdown_pct))) = some (some (427 / 10)) ∧
      (427 / 10 : ℚ) ≠ -61 := by
  decide

/-- C2 (amended): with one symbol of unknown sector, weights omitted and a
portfolio value of 100000, the applied sector sensitivity is the fmcg-map
default 0.7 (not 1.0), so each crisis's reported portfolio drawdown
percentage equals −0.7 × that crisis's published base market drawdown (the
base drawdowns are negative, the reported percentages positive). -/
theorem run_full_stress_test_unknown_sector (fetchClose : String → Option ℚ)
    (sym : String) (price : ℚ)
    (hsec : get_stock_sector sym = "unknown")
    (hfetch : fetchClose sym = some price) :
    ∃ r, run_full_stress_test fetchClose [sym] none 100000 = some r ∧
      ∀ c ∈ r.crisis_results, ∃ crisis ∈ HISTORICAL_CRISES,
        c.crisis_id = crisis.crisis_id ∧
        c.portfolio_drawdown_pct = -(7 / 10 * crisis.nifty_drawdown) := by
  have hws : stress_normalized_weights [sym] none = [1] := by
    unfold stress_normalized_weights
    norm_num
  unfold run_full_stress_test
  rw [if_neg (by simp)]
  simp only [hws, List.zip_cons_cons, List.zip_nil_right, List.filterMap_cons,
    List.filterMap_nil, hfetch, hsec, mul_one]
  rw [if_neg (by simp)]
  refine ⟨_, rfl, ?_⟩
  intro c hc
  rw [List.mem_insertionSort] at hc
  rcases List.mem_map.mp hc with ⟨crisis, hmem, rfl⟩
  refine ⟨crisis, hmem, rfl, ?_⟩
  have hloss := calculate_crisis_impact_unknown_loss sym 100000 crisis hsec
    (historical_crises_find_self crisis hmem)
  simp only [List.map_cons, List.map_nil, hloss, Option.getD_some,
    List.sum_cons, List.sum_nil, add_zero]
  ring

/-- C2 witness: the concrete symbol "ZZZ" (absent from the sector table) with
a constant price feed. -/
theorem run_full_stress_test_unknown_sector_witness :
    get_stock_sector "ZZZ" = "unknown" ∧
      (fun _ : String => some (100 : ℚ)) "ZZZ" = some 100 ∧
      ∃ r, run_full_stress_test (fun _ => some (100 : ℚ)) ["ZZZ"] none 100000 =
          some r ∧
        ∀ c ∈ r.crisis_results, ∃ crisis ∈ HISTORICAL_CRISES,
          c.crisis_id = crisis.crisis_id ∧
          c.portfolio_drawdown_pct = -(7 / 10 * crisis.nifty_drawdown) :=
  ⟨by decide, rfl,
    run_full_stress_test_unknown_sector (fun _ => some 100) "ZZZ" 100
      (by decide) rfl⟩

-- ---------------------------------------------------------------------------
-- app/services/data_manager.py : fetch_stock_data
-- ---------------------------------------------------------------------------

/-- A raw provider frame: named columns of cells; a `none` cell is a NaN. -/
structure RawFrame where
  cols : List (String × List (Option ℚ))
deriving DecidableEq

/-- What one provider call does: raise, or deliver a frame. -/
inductive FetchOutcome where
  | raises : FetchOutcome
  | frame : RawFrame → FetchOutcome
deriving DecidableEq

/-- Python `str.lower()` on the ASCII column names used here. -/
def pyLower (s : String) : String := ⟨s.data.map Char.toLower⟩

def REQUIRED_COLS : List String := ["open", "high", "low", "close", "volume"]

def RENAME_MAP : List (String × String) :=
  [("adj close", "adj_close"), ("stock splits", "stock_splits")]

def renameCol (n : String) : String :=
  ((RENAME_MAP.find? (fun p => p.1 == n)).map Prod.snd).getD n

/-- `df.empty`: no columns or no rows. -/
def RawFrame.pdEmpty (f : RawFrame) : Bool :=
  f.cols.isEmpty || decide ((f.cols.map (fun c => c.2.length)).foldr max 0 = 0)

/-- Last valid value at an index strictly before `i`. -/
def validBefore (l : List (Option ℚ)) (i : ℕ) : Option (ℕ × ℚ) :=
  ((List.range i).filterMap
    (fun j => (l.getD j none).map (fun v => (j, v)))).getLast?

/-- First valid value at an index strictly after `i`. -/
def validAfter (l : List (Option ℚ)) (i : ℕ) : Option (ℕ × ℚ) :=
  (((List.range l.length).drop (i + 1)).filterMap
    (fun j => (l.getD j none).map (fun v => (j, v)))).head?

/-- `Series.interpolate(method="linear")` with the default forward limit
direction: NaNs between two valid values are linearly interpolated, NaNs
after the last valid value are filled with it, leading NaNs stay NaN. -/
def interpolateLinear (l : List (Option ℚ)) : List (Option ℚ) :=
  (List.range l.length).map (fun i =>
    match l.getD i none with
    | some v => some v
    | none =>
      match validBefore l i, validAfter l i with
      | some (j, a), some (k, b) =>
        some (a + (b - a) * (((i - j : ℕ) : ℚ) / ((k - j : ℕ) : ℚ)))
      | some (_, a), none => some a
      | none, _ => none)

/-- `Series.ffill()`. -/
def ffill (l : List (Option ℚ)) : List (Option ℚ) :=
  (List.range l.length).map (fun i =>
    match l.getD i none with
    | some v => some v
    | none => (validBefore l i).map Prod.snd)

/-- `Series.bfill()`. -/
def bfill (l : List (Option ℚ)) : List (Option ℚ) :=
  (List.range l.length).map (fun i =>
    match l.getD i none with
    | some v => some v
    | none => (validAfter l i).map Prod.snd)

/-- One loop iteration of `fetch_stock_data` (data_manager.py:22-60): `none`
when the attempt falls through to the next one (provider raised, empty frame,
or missing required columns); `some` with the standardized, filtered and
NaN-cleaned frame when it returns.  The all-zero-volume check only logs. -/
def attempt_result (o : FetchOutcome) : Option RawFrame :=
  match o with
  | .raises => none
  | .frame df =>
    if df.pdEmpty then none
    else
      let lowered := df.cols.map (fun c => (pyLower c.1, c.2))
      if ¬ (REQUIRED_COLS.all (fun r => (lowered.map Prod.fst).contains r)) then
        none
      else
        let renamed := lowered.map (fun c => (renameCol c.1, c.2))
        let filtered := renamed.filter (fun c =>
          REQUIRED_COLS.contains c.1 || (RENAME_MAP.map Prod.snd).contains c.1)
        let hasNull := filtered.any (fun c =>
          REQUIRED_COLS.contains c.1 && c.2.any (fun x => x.isNone))
        let cleaned :=
          if hasNull then
            filtered.map (fun c =>
              if REQUIRED_COLS.contains c.1 then
                (c.1, bfill (ffill (interpolateLinear c.2)))
              else c)
          else filtered
        some ⟨cleaned⟩

/-- `fetch_stock_data` (data_manager.py:16-67): at most `MAX_RETRIES = 3`
provider calls, written out as the three attempts; when none of them returns,
the function returns `Result.Fail` (modelled `Except.error`) — and the
`@robust_service` decorator would convert any escaping exception into a
`Fail` as well, so nothing raises past the boundary. -/
def fetch_stock_data (provider : ℕ → FetchOutcome) : Except String RawFrame :=
  match attempt_result (provider 0) with
  | some df => .ok df
  | none =>
    match attempt_result (provider 1) with
    | some df => .ok df
    | none =>
      match attempt_result (provider 2) with
      | some df => .ok df
      | none => .error "Failed to fetch data after MAX_RETRIES attempts"

/-- C8: the loader consults the provider only on attempts 0, 1 and 2 (any two
providers agreeing there give identical results), and when all three attempts
are bad — raise, empty frame, or missing columns — it returns the failure
value rather than raising. -/
theorem fetch_stock_data_three_attempts (provider provider2 : ℕ → FetchOutcome)
    (hagree : ∀ i, i < 3 → provider i = provider2 i)
    (hbad : ∀ i, i < 3 → attempt_result (provider i) = none) :
    fetch_stock_data provider =
        .error "Failed to fetch data after MAX_RETRIES attempts" ∧
      fetch_stock_data provider = fetch_stock_data provider2 := by
  have h0 := hbad 0 (by omega)
  have h1 := hbad 1 (by omega)
  have h2 := hbad 2 (by omega)
  have e : fetch_stock_data provider =
      .error "Failed to fetch data after MAX_RETRIES attempts" := by
    unfold fetch_stock_data
    rw [h0, h1, h2]
  refine ⟨e, ?_⟩
  rw [e]
  unfold fetch_stock_data
  rw [← hagree 0 (by omega), ← hagree 1 (by omega), ← hagree 2 (by omega),
    h0, h1, h2]

/-- C8 witness: a provider that always raises. -/
theorem fetch_stock_data_three_attempts_witness :
    (∀ i, i < 3 → (fun _ : ℕ => FetchOutcome.raises) i =
      (fun _ : ℕ => FetchOutcome.raises) i) ∧
      (∀ i, i < 3 → attempt_result ((fun _ : ℕ => FetchOutcome.raises) i) = none) ∧
      fetch_stock_data (fun _ => FetchOutcome.raises) =
        .error "Failed to fetch data after MAX_RETRIES attempts" :=
  ⟨fun _ _ => rfl, fun _ _ => rfl,
    (fetch_stock_data_three_attempts (fun _ => FetchOutcome.raises)
      (fun _ => FetchOutcome.raises) (fun _ _ => rfl) (fun _ _ => rfl)).1⟩

theorem getD_map_range (f : ℕ → Option ℚ) (n i : ℕ) (hi : i < n) :
    (((List.range n).map f).getD i none) = f i := by
  rw [List.getD_eq_getElem?_getD, List.getElem?_map, List.getElem?_range hi]
  rfl

theorem validBefore_isSome_of (l : List (Option ℚ)) (i j : ℕ) (hj : j < i)
    (h : (l.getD j none).isSome) : (validBefore l i).isSome := by
  obtain ⟨v, hv⟩ := Option.isSome_iff_exists.mp h
  unfold validBefore
  rw [List.getLast?_isSome]
  apply List.ne_nil_of_mem (a := (j, v))
  apply List.mem_filterMap.mpr
  refine ⟨j, List.mem_range.mpr hj, ?_⟩
  rw [hv]
  rfl

theorem validAfter_isSome_of (l : List (Option ℚ)) (i j : ℕ) (hij : i < j)
    (hj : j < l.length) (h : (l.getD j none).isSome) :
    (validAfter l i).isSome := by
  obtain ⟨v, hv⟩ := Option.isSome_iff_exists.mp h
  unfold validAfter
  rw [List.head?_isSome]
  apply List.ne_nil_of_mem (a := (j, v))
  apply List.mem_filterMap.mpr
  refine ⟨j, ?_, ?_⟩
  · have hget : ((List.range l.length).drop (i + 1))[j - (i + 1)]? = some j := by
      rw [List.getElem?_drop, List.getElem?_range (by omega)]
      congr 1
      omega
    exact List.getElem?_mem hget
  · rw [hv]
    rfl

theorem ffill_length (l : List (Option ℚ)) : (ffill l).length = l.length := by
  simp [ffill]

theorem bfill_length (l : List (Option ℚ)) : (bfill l).length = l.length := by
  simp [bfill]

theorem interpolateLinear_length (l : List (Option ℚ)) :
    (interpolateLinear l).length = l.length := by
  simp [interpolateLinear]

theorem ffill_some (l : List (Option ℚ)) (i : ℕ) (hi : i < l.length)
    (h : ∃ j, j ≤ i ∧ (l.getD j none).isSome) :
    ((ffill l).getD i none).isSome := by
  obtain ⟨j, hji, hj⟩ := h
  unfold ffill
  rw [getD_map_range _ _ _ hi]
  cases hval : l.getD i none with
  | some v => rfl
  | none =>
    simp only []
    rcases Nat.lt_or_ge j i with hlt | hge
    · have := validBefore_isSome_of l i j hlt hj
      cases hvb : validBefore l i with
      | none => rw [hvb] at this; simp at this
      | some p => rfl
    · have hji' : j = i := by omega
      rw [hji', hval] at hj
      simp at hj

theorem bfill_some (l : List (Option ℚ)) (i : ℕ) (hi : i < l.length)
    (h : ∃ j, i ≤ j ∧ j < l.length ∧ (l.getD j none).isSome) :
    ((bfill l).getD i none).isSome := by
  obtain ⟨j, hij, hjl, hj⟩ := h
  unfold bfill
  rw [getD_map_range _ _ _ hi]
  cases hval : l.getD i none with
  | some v => rfl
  | none =>
    simp only []
    rcases Nat.lt_or_ge i j with hlt | hge
    · have := validAfter_isSome_of l i j hlt hjl hj
      cases hva : validAfter l i with
      | none => rw [hva] at this; simp at this
      | some p => rfl
    · have hji' : j = i := by omega
      rw [hji', hval] at hj
      simp at hj

theorem interpolateLinear_some (l : List (Option ℚ)) (j : ℕ) (hj : j < l.length)
    (h : (l.getD j none).isSome) :
    ((interpolateLinear l).getD j none).isSome := by
  unfold interpolateLinear
  rw [getD_map_range _ _ _ hj]
  cases hval : l.getD j none with
  | some v => rfl
  | none => rw [hval] at h; simp at h

/-- The composite cleaning `interpolate → ffill → bfill` leaves no NaN as
soon as the column holds at least one valid value. -/
theorem clean_all_some (l : List (Option ℚ)) (hex : ∃ x ∈ l, x.isSome) :
    ∀ x ∈ bfill (ffill (interpolateLinear l)), x.isSome := by
  obtain ⟨x0, hx0, hs0⟩ := hex
  rcases List.mem_iff_getElem.mp hx0 with ⟨j, hj, rfl⟩
  have hjD : (l.getD j none).isSome := by
    rw [List.getD_eq_getElem?_getD, List.getElem?_eq_getElem hj]
    exact hs0
  have h1 : ((interpolateLinear l).getD j none).isSome :=
    interpolateLinear_some l j hj hjD
  have hlen1 : (interpolateLinear l).length = l.length := interpolateLinear_length l
  have h2 : ∀ i, i < l.length → j ≤ i → ((ffill (interpolateLinear l)).getD i none).isSome := by
    intro i hi hji
    exact ffill_some _ i (by rw [hlen1]; exact hi) ⟨j, hji, h1⟩
  have hlen2 : (ffill (interpolateLinear l)).length = l.length := by
    rw [ffill_length, hlen1]
  intro x hx
  rcases List.mem_iff_getElem.mp hx with ⟨i, hi, rfl⟩
  have hi' : i < l.length := by
    rw [bfill_length, hlen2] at hi
    exact hi
  have key : ((bfill (ffill (interpolateLinear l))).getD i none).isSome := by
    apply bfill_some _ i (by rw [hlen2]; exact hi')
    refine ⟨max i j, le_max_left i j, ?_, ?_⟩
    · rw [hlen2]
      omega
    · exact h2 (max i j) (by omega) (le_max_right i j)
  rwa [List.getD_eq_getElem?_getD, List.getElem?_eq_getElem hi] at key

/-- A returned attempt leaves no NaN in any required column, provided every
column of the offered frame held at least one valid value. -/
theorem attempt_result_nan_free (o : FetchOutcome) (df : RawFrame)
    (h : attempt_result o = some df)
    (hvalid : ∀ df0, o = .frame df0 → ∀ c ∈ df0.cols, ∃ x ∈ c.2, x.isSome) :
    ∀ c ∈ df.cols, c.1 ∈ REQUIRED_COLS → ∀ x ∈ c.2, x.isSome := by
  cases o with
  | raises => exact absurd h (by simp [attempt_result])
  | frame df0 =>
    have hval := hvalid df0 rfl
    simp only [attempt_result] at h
    by_cases he : df0.pdEmpty = true
    · rw [if_pos he] at h
      cases h
    rw [if_neg he] at h
    by_cases hcols : ¬ (REQUIRED_COLS.all
        (fun r => ((df0.cols.map (fun c => (pyLower c.1, c.2))).map Prod.fst).contains r)) = true
    · rw [if_pos hcols] at h
      cases h
    rw [if_neg hcols] at h
    injection h with h
    subst h
    simp only []
    -- provenance of filtered entries
    have hprov : ∀ c ∈ ((df0.cols.map (fun c => (pyLower c.1, c.2))).map
          (fun c => (renameCol c.1, c.2))).filter (fun c =>
            REQUIRED_COLS.contains c.1 ||
              (RENAME_MAP.map Prod.snd).contains c.1),
        ∃ c0 ∈ df0.cols, c.2 = c0.2 := by
      intro c hc
      have hmem := (List.mem_filter.mp hc).1
      rcases List.mem_map.mp hmem with ⟨c1, hc1, rfl⟩
      rcases List.mem_map.mp hc1 with ⟨c0, hc0, rfl⟩
      exact ⟨c0, hc0, rfl⟩
    set filtered := ((df0.cols.map (fun c => (pyLower c.1, c.2))).map
      (fun c => (renameCol c.1, c.2))).filter (fun c =>
        REQUIRED_COLS.contains c.1 ||
          (RENAME_MAP.map Prod.snd).contains c.1) with hfiltered
    by_cases hnull : (filtered.any (fun c =>
        REQUIRED_COLS.contains c.1 && c.2.any (fun x => x.isNone))) = true
    · rw [if_pos hnull]
      intro c hc hreq x hx
      rcases List.mem_map.mp hc with ⟨c1, hc1, rfl⟩
      by_cases hr : REQUIRED_COLS.contains c1.1 = true
      · rw [if_pos hr] at hx
        rcases hprov c1 hc1 with ⟨c0, hc0, hsnd⟩
        have hex : ∃ y ∈ c1.2, y.isSome := by
          rw [hsnd]
          exact hval c0 hc0
        exact clean_all_some c1.2 hex x hx
      · rw [if_neg hr] at hreq
        exact absurd (List.elem_eq_true_of_mem hreq) hr
    · rw [if_neg hnull]
      intro c hc hreq x hx
      obtain ⟨n, col⟩ := c
      have hnone : ∀ (a : String) (b : List (Option ℚ)),
          (a, b) ∈ filtered → a ∈ REQUIRED_COLS → (none : Option ℚ) ∉ b := by
        simpa using hnull
      have hni := hnone n col hc hreq
      cases x with
      | none => exact absurd hx hni
      | some v => rfl

/-- C9 counterexample: a provider frame whose close column is entirely NaN
passes the emptiness and column checks, and interpolation/ffill/bfill have no
valid value to propagate — the loader returns a successful result whose close
column still contains NaN. -/
theorem fetch_stock_data_allnan_close_counterexample :
    fetch_stock_data (fun _ => .frame ⟨[("Open", [some 1]), ("High", [some 1]),
        ("Low", [some 1]), ("Close", [none]), ("Volume", [some 0])]⟩) =
      .ok ⟨[("open", [some 1]), ("high", [some 1]), ("low", [some 1]),
        ("close", [none]), ("volume", [some 0])]⟩ := rfl

/-- C9 (amended): whenever the series loader returns a successful result and
each column of the frame the provider delivered held at least one non-NaN
value, every cell of the returned open/high/low/close/volume columns is
non-NaN: missing values are removed by linear interpolation followed by
forward-then-backward fill.  (An entirely-NaN column survives cleaning, so
the one-valid-value proviso is necessary.) -/
theorem fetch_stock_data_success_nan_free (provider : ℕ → FetchOutcome)
    (df : RawFrame)
    (hvalid : ∀ i, i < 3 → ∀ df0, provider i = .frame df0 →
      ∀ c ∈ df0.cols, ∃ x ∈ c.2, x.isSome)
    (h : fetch_stock_data provider = .ok df) :
    ∀ c ∈ df.cols, c.1 ∈ REQUIRED_COLS → ∀ x ∈ c.2, x.isSome := by
  unfold fetch_stock_data at h
  cases h0 : attempt_result (provider 0) with
  | some df1 =>
    rw [h0] at h
    simp only [] at h
    injection h with h
    subst h
    exact attempt_result_nan_free _ _ h0 (hvalid 0 (by omega))
  | none =>
    rw [h0] at h
    cases h1 : attempt_result (provider 1) with
    | some df1 =>
      rw [h1] at h
      simp only [] at h
      injection h with h
      subst h
      exact attempt_result_nan_free _ _ h1 (hvalid 1 (by omega))
    | none =>
      rw [h1] at h
      cases h2 : attempt_result (provider 2) with
      | some df1 =>
        rw [h2] at h
        simp only [] at h
        injection h with h
        subst h
        exact attempt_result_nan_free _ _ h2 (hvalid 2 (by omega))
      | none =>
        rw [h2] at h
        cases h

/-- C9 witness: a frame with one interior NaN in the close column — the
loader succeeds and its required columns come back NaN-free (the NaN is
backfilled with the following close). -/
theorem fetch_stock_data_success_nan_free_witness :
    (∀ i, i < 3 → ∀ df0,
      (fun _ : ℕ => FetchOutcome.frame ⟨[("Open", [some 1, some 2]),
        ("High", [some 2, some 3]), ("Low", [some 1, some 1]),
        ("Close", [none, some 2]), ("Volume", [some 5, some 6])]⟩) i = .frame df0 →
      ∀ c ∈ df0.cols, ∃ x ∈ c.2, x.isSome) ∧
      fetch_stock_data (fun _ : ℕ => FetchOutcome.frame ⟨[("Open", [some 1, some 2]),
          ("High", [some 2, some 3]), ("Low", [some 1, some 1]),
          ("Close", [none, some 2]), ("Volume", [some 5, some 6])]⟩) =
        .ok ⟨[("open", [some 1, some 2]), ("high", [some 2, some 3]),
          ("low", [some 1, some 1]), ("close", [some 2, some 2]),
          ("volume", [some 5, some 6])]⟩ ∧
      ∀ c ∈ (RawFrame.mk [("open", [some (1 : ℚ), some 2]), ("high", [some 2, some 3]),
          ("low", [some 1, some 1]), ("close", [some 2, some 2]),
          ("volume", [some 5, some 6])]).cols,
        c.1 ∈ REQUIRED_COLS → ∀ x ∈ c.2, x.isSome := by
  refine ⟨?_, rfl, ?_⟩
  · intro i _ df0 hof
    injection hof with hof
    subst hof
    decide
  · exact fetch_stock_data_success_nan_free
      (fun _ : ℕ => FetchOutcome.frame ⟨[("Open", [some 1, some 2]),
        ("High", [some 2, some 3]), ("Low", [some 1, some 1]),
        ("Close", [none, some 2]), ("Volume", [some 5, some 6])]⟩)
      ⟨[("open", [some 1, some 2]), ("high", [some 2, some 3]),
        ("low", [some 1, some 1]), ("close", [some 2, some 2]),
        ("volume", [some 5, some 6])]⟩
      (fun i _ df0 hof => by
        injection hof with hof
        subst hof
        decide)
      rfl

-- ---------------------------------------------------------------------------
-- Float-faithful model of estimate_institutional_activity.
-- The ℚ embedding above is exact for finite arithmetic, but pct_change
-- divides by the previous close, and a zero close makes numpy produce
-- inf/NaN, which dropna does not remove.  The model below tracks those
-- special values explicitly.
-- ---------------------------------------------------------------------------

/-- A Python/numpy float64 value: a finite rational, one of the two
infinities, or NaN.  Rounding is abstracted (finite values are exact);
the special values and their propagation are not. -/
inductive PyFloat where
  | finite : ℚ → PyFloat
  | inf : PyFloat
  | neginf : PyFloat
  | nan : PyFloat
deriving DecidableEq

/-- IEEE-754 negation. -/
def PyFloat.neg : PyFloat → PyFloat
  | .finite a => .finite (-a)
  | .inf => .neginf
  | .neginf => .inf
  | .nan => .nan

/-- IEEE-754 addition: NaN propagates, `inf + (-inf) = NaN`. -/
def PyFloat.add : PyFloat → PyFloat → PyFloat
  | .nan, _ => .nan
  | _, .nan => .nan
  | .inf, .neginf => .nan
  | .neginf, .inf => .nan
  | .inf, _ => .inf
  | _, .inf => .inf
  | .neginf, _ => .neginf
  | _, .neginf => .neginf
  | .finite a, .finite b => .finite (a + b)

/-- IEEE-754 subtraction. -/
def PyFloat.sub (x y : PyFloat) : PyFloat := PyFloat.add x (PyFloat.neg y)

/-- IEEE-754 multiplication: NaN propagates, `inf * 0 = NaN`. -/
def PyFloat.mul : PyFloat → PyFloat → PyFloat
  | .nan, _ => .nan
  | _, .nan => .nan
  | .inf, .inf => .inf
  | .inf, .neginf => .neginf
  | .neginf, .inf => .neginf
  | .neginf, .neginf => .inf
  | .inf, .finite b => if b = 0 then .nan else if 0 < b then .inf else .neginf
  | .finite a, .inf => if a = 0 then .nan else if 0 < a then .inf else .neginf
  | .neginf, .finite b => if b = 0 then .nan else if 0 < b then .neginf else .inf
  | .finite a, .neginf => if a = 0 then .nan else if 0 < a then .neginf else .inf
  | .finite a, .finite b => .finite (a * b)

/-- IEEE-754 division (with numpy's +0 denominators: `x / 0` is `±inf` for
`x ≠ 0` and NaN for `0 / 0`; `inf / inf = NaN`; `finite / inf = 0`). -/
def PyFloat.div : PyFloat → PyFloat → PyFloat
  | .nan, _ => .nan
  | _, .nan => .nan
  | .inf, .inf => .nan
  | .inf, .neginf => .nan
  | .neginf, .inf => .nan
  | .neginf, .neginf => .nan
  | .inf, .finite b => if 0 ≤ b then .inf else .neginf
  | .neginf, .finite b => if 0 ≤ b then .neginf else .inf
  | .finite _, .inf => .finite 0
  | .finite _, .neginf => .finite 0
  | .finite a, .finite b =>
    if b = 0 then (if a = 0 then .nan else if 0 < a then .inf else .neginf)
    else .finite (a / b)

/-- IEEE-754 `<`: any comparison with NaN is false. -/
def PyFloat.lt : PyFloat → PyFloat → Bool
  | .nan, _ => false
  | _, .nan => false
  | .neginf, .neginf => false
  | .neginf, _ => true
  | _, .neginf => false
  | .inf, _ => false
  | .finite _, .inf => true
  | .finite a, .finite b => decide (a < b)

/-- IEEE-754 `≤`: any comparison with NaN is false. -/
def PyFloat.le : PyFloat → PyFloat → Bool
  | .nan, _ => false
  | _, .nan => false
  | .neginf, _ => true
  | _, .neginf => false
  | _, .inf => true
  | .inf, _ => false
  | .finite a, .finite b => decide (a ≤ b)

def PyFloat.isNaN : PyFloat → Bool
  | .nan => true
  | _ => false

/-- `np.sqrt` lifted to special values; `fsqrt` is the exact square root on
finite nonnegative arguments. -/
def PyFloat.sqrtWith (fsqrt : ℚ → ℚ) : PyFloat → PyFloat
  | .nan => .nan
  | .inf => .inf
  | .neginf => .nan
  | .finite q => if q < 0 then .nan else .finite (fsqrt q)

/-- Float sum of a series. -/
def sumF (l : List PyFloat) : PyFloat := l.foldr PyFloat.add (.finite 0)

/-- Float mean of a series. -/
def pandasMeanF (l : List PyFloat) : PyFloat :=
  PyFloat.div (sumF l) (.finite (l.length : ℚ))

/-- Float sample variance (ddof=1), squared deviations via multiplication. -/
def sampleVarF (l : List PyFloat) : PyFloat :=
  PyFloat.div
    (sumF (l.map (fun x =>
      PyFloat.mul (PyFloat.sub x (pandasMeanF l)) (PyFloat.sub x (pandasMeanF l)))))
    (.finite ((l.length : ℚ) - 1))

/-- `pandas.Series.std()` (ddof=1) in float semantics. -/
def sampleStdF (fsqrt : ℚ → ℚ) (l : List PyFloat) : PyFloat :=
  PyFloat.sqrtWith fsqrt (sampleVarF l)

/-- `Series.pct_change()` in float semantics: dividing by a zero previous
close yields ±inf (or NaN for 0/0). -/
def pctChangeF (closes : List ℚ) : List PyFloat :=
  List.zipWith
    (fun b a => PyFloat.div (PyFloat.sub (.finite b) (.finite a)) (.finite a))
    closes.tail closes

/-- `Series.dropna()`: removes NaN only — infinities survive. -/
def dropnaF (l : List PyFloat) : List PyFloat := l.filter (fun x => !x.isNaN)

/-- Python builtin `min(1, x)` on floats: returns `x` only when `x < 1`
evaluates true, so both NaN (incomparable) and +inf give 1. -/
def pymin1 (x : PyFloat) : PyFloat :=
  if PyFloat.lt x (.finite 1) then x else .finite 1

/-- Result of `estimate_institutional_activity` in float semantics. -/
structure FlowResultF where
  institutional_score : PyFloat
  retail_score : PyFloat
  dominant : String
deriving DecidableEq

/-- `estimate_institutional_activity` (institutional_flow.py:22-73) with
float special-value semantics on the NaN-capable path (returns → rolling
std → signals → normalized scores).  The volume ratio, price differences
and choppiness involve no division by data values and stay finite, so they
are computed exactly. -/
def estimate_institutional_activity_float (fsqrt : ℚ → ℚ) (df : List Bar) :
    FlowResultF :=
  if df.length < 10 then ⟨.finite (1 / 2), .finite (1 / 2), "unknown"⟩
  else
    let returns := dropnaF (pctChangeF (df.map Bar.close))
    let volatility :=
      if 5 ≤ returns.length then sampleStdF fsqrt (pandasTail returns 5)
      else sampleStdF fsqrt returns
    let avg_volume := npMean (df.map Bar.volume)
    let recent_volume := npMean (pandasTail (df.map Bar.volume) 5)
    let volume_ratio := if 0 < avg_volume then recent_volume / avg_volume else 1
    let institutional_signal := PyFloat.mul (.finite volume_ratio)
      (PyFloat.sub (.finite 1) (pymin1 (PyFloat.mul volatility (.finite 50))))
    let price_changes := npDiff (df.map Bar.close)
    let direction_changes :=
      (List.zipWith (fun b a => decide (npSign b ≠ npSign a))
        price_changes.tail price_changes).countP id
    let choppiness :=
      (direction_changes : ℚ) / ((max 1 (price_changes.length - 1) : ℕ) : ℚ)
    let retail_signal :=
      PyFloat.mul (PyFloat.mul volatility (.finite 20)) (.finite choppiness)
    let total := PyFloat.add (PyFloat.add institutional_signal retail_signal)
      (.finite (1 / 100))
    let institutional_score := PyFloat.div institutional_signal total
    let retail_score := PyFloat.div retail_signal total
    ⟨institutional_score, retail_score,
      if PyFloat.lt retail_score institutional_score then "institutional"
      else "retail"⟩

/-- The ℚ result seen as finite floats. -/
def floatify (r : FlowResult) : FlowResultF :=
  ⟨.finite r.institutional_score, .finite r.retail_score, r.dominant⟩

theorem PyFloat.add_finite (a b : ℚ) :
    PyFloat.add (.finite a) (.finite b) = .finite (a + b) := rfl

theorem PyFloat.sub_finite (a b : ℚ) :
    PyFloat.sub (.finite a) (.finite b) = .finite (a - b) := by
  simp [PyFloat.sub, PyFloat.neg, PyFloat.add, sub_eq_add_neg]

theorem PyFloat.mul_finite (a b : ℚ) :
    PyFloat.mul (.finite a) (.finite b) = .finite (a * b) := rfl

theorem PyFloat.div_finite (a b : ℚ) (h : b ≠ 0) :
    PyFloat.div (.finite a) (.finite b) = .finite (a / b) := by
  simp [PyFloat.div, h]

theorem PyFloat.lt_finite (a b : ℚ) :
    PyFloat.lt (.finite a) (.finite b) = decide (a < b) := rfl

theorem sumF_cons (x : PyFloat) (l : List PyFloat) :
    sumF (x :: l) = PyFloat.add x (sumF l) := rfl

theorem sumF_map_finite (l : List ℚ) :
    sumF (l.map PyFloat.finite) = .finite l.sum := by
  induction l with
  | nil => rfl
  | cons x xs ih =>
    rw [List.map_cons, sumF_cons, ih, PyFloat.add_finite, List.sum_cons]

theorem pandasMeanF_map_finite (l : List ℚ) (h : l ≠ []) :
    pandasMeanF (l.map PyFloat.finite) = .finite (npMean l) := by
  have hlen : ((l.length : ℚ)) ≠ 0 := by
    have h0 : l.length ≠ 0 := fun h0 => h (List.length_eq_zero.mp h0)
    exact_mod_cast h0
  unfold pandasMeanF npMean
  rw [List.length_map, sumF_map_finite, PyFloat.div_finite _ _ hlen]

theorem sampleStdF_map_finite (fsqrt : ℚ → ℚ) (l : List ℚ) (h2 : 2 ≤ l.length) :
    sampleStdF fsqrt (l.map PyFloat.finite) = .finite (fsqrt (sampleVar l)) := by
  have hne : l ≠ [] := by
    intro h0
    subst h0
    simp at h2
  unfold sampleStdF sampleVarF
  rw [pandasMeanF_map_finite l hne]
  have hmap : (l.map PyFloat.finite).map
      (fun x => PyFloat.mul (PyFloat.sub x (.finite (npMean l)))
        (PyFloat.sub x (.finite (npMean l)))) =
      (l.map (fun x => (x - npMean l) ^ 2)).map PyFloat.finite := by
    rw [List.map_map, List.map_map]
    apply List.map_congr_left
    intro a _
    simp [Function.comp, PyFloat.sub_finite, PyFloat.mul_finite, pow_two]
  rw [hmap, sumF_map_finite, List.length_map]
  have hden : ((l.length : ℚ) - 1) ≠ 0 := by
    have h2' : (2 : ℚ) ≤ (l.length : ℚ) := by exact_mod_cast h2
    intro h0
    rw [sub_eq_zero] at h0
    rw [h0] at h2'
    norm_num at h2'
  rw [PyFloat.div_finite _ _ hden]
  show PyFloat.sqrtWith fsqrt (.finite (sampleVar l)) = .finite (fsqrt (sampleVar l))
  simp only [PyFloat.sqrtWith]
  rw [if_neg (not_lt.mpr (sampleVar_nonneg l))]

theorem zipWith_pct_finite (xs ys : List ℚ) (hy : ∀ y ∈ ys, y ≠ 0) :
    List.zipWith
        (fun b a => PyFloat.div (PyFloat.sub (.finite b) (.finite a)) (.finite a))
        xs ys =
      (List.zipWith (fun b a => (b - a) / a) xs ys).map PyFloat.finite := by
  induction xs generalizing ys with
  | nil => simp
  | cons x xs ih =>
    cases ys with
    | nil => simp
    | cons y ys =>
      rw [List.zipWith_cons_cons, List.zipWith_cons_cons, List.map_cons,
        PyFloat.sub_finite, PyFloat.div_finite _ _ (hy y (List.mem_cons_self y ys)),
        ih ys (fun z hz => hy z (List.mem_cons_of_mem y hz))]

theorem pctChangeF_eq_map (closes : List ℚ) (h : ∀ c ∈ closes, c ≠ 0) :
    pctChangeF closes = (pctChange closes).map PyFloat.finite := by
  unfold pctChangeF pctChange
  exact zipWith_pct_finite _ _ h

theorem dropnaF_map_finite (l : List ℚ) :
    dropnaF (l.map PyFloat.finite) = l.map PyFloat.finite := by
  unfold dropnaF
  rw [List.filter_eq_self]
  intro x hx
  rcases List.mem_map.mp hx with ⟨q, _, rfl⟩
  rfl

theorem pandasTail_map {α β : Type} (f : α → β) (l : List α) (n : ℕ) :
    pandasTail (l.map f) n = (pandasTail l n).map f := by
  unfold pandasTail
  rw [List.length_map, List.map_drop]

theorem pctChange_length (l : List ℚ) : (pctChange l).length = l.length - 1 := by
  simp [pctChange, List.length_zipWith, List.length_tail]

theorem pymin1_finite (x : ℚ) : pymin1 (.finite x) = .finite (min 1 x) := by
  unfold pymin1
  rw [PyFloat.lt_finite]
  by_cases h : x < 1
  · rw [if_pos (by simpa using h), min_eq_right h.le]
  · rw [if_neg (by simpa using h), min_eq_left (not_lt.mp h)]

/-- Final score algebra of the float model on finite inputs: with
nonnegative volume-ratio, volatility and choppiness the special values never
appear, and the result is exactly the finite image of the exact-arithmetic
score record. -/
theorem flow_float_finish (vr V chop : ℚ)
    (hvr : 0 ≤ vr) (hV : 0 ≤ V) (hchop : 0 ≤ chop) :
    (⟨PyFloat.div
        (PyFloat.mul (.finite vr)
          (PyFloat.sub (.finite 1) (pymin1 (PyFloat.mul (.finite V) (.finite 50)))))
        (PyFloat.add
          (PyFloat.add
            (PyFloat.mul (.finite vr)
              (PyFloat.sub (.finite 1)
                (pymin1 (PyFloat.mul (.finite V) (.finite 50)))))
            (PyFloat.mul (PyFloat.mul (.finite V) (.finite 20)) (.finite chop)))
          (.finite (1 / 100))),
      PyFloat.div
        (PyFloat.mul (PyFloat.mul (.finite V) (.finite 20)) (.finite chop))
        (PyFloat.add
          (PyFloat.add
            (PyFloat.mul (.finite vr)
              (PyFloat.sub (.finite 1)
                (pymin1 (PyFloat.mul (.finite V) (.finite 50)))))
            (PyFloat.mul (PyFloat.mul (.finite V) (.finite 20)) (.finite chop)))
          (.finite (1 / 100))),
      if PyFloat.lt
          (PyFloat.div
            (PyFloat.mul (PyFloat.mul (.finite V) (.finite 20)) (.finite chop))
            (PyFloat.add
              (PyFloat.add
                (PyFloat.mul (.finite vr)
                  (PyFloat.sub (.finite 1)
                    (pymin1 (PyFloat.mul (.finite V) (.finite 50)))))
                (PyFloat.mul (PyFloat.mul (.finite V) (.finite 20)) (.finite chop)))
              (.finite (1 / 100))))
          (PyFloat.div
            (PyFloat.mul (.finite vr)
              (PyFloat.sub (.finite 1)
                (pymin1 (PyFloat.mul (.finite V) (.finite 50)))))
            (PyFloat.add
              (PyFloat.add
                (PyFloat.mul (.finite vr)
                  (PyFloat.sub (.finite 1)
                    (pymin1 (PyFloat.mul (.finite V) (.finite 50)))))
                (PyFloat.mul (PyFloat.mul (.finite V) (.finite 20)) (.finite chop)))
              (.finite (1 / 100))))
        then "institutional" else "retail"⟩ : FlowResultF) =
      floatify
        ⟨vr * (1 - min 1 (V * 50)) /
            (vr * (1 - min 1 (V * 50)) + V * 20 * chop + 1 / 100),
          V * 20 * chop /
            (vr * (1 - min 1 (V * 50)) + V * 20 * chop + 1 / 100),
          if V * 20 * chop /
                (vr * (1 - min 1 (V * 50)) + V * 20 * chop + 1 / 100) <
              vr * (1 - min 1 (V * 50)) /
                (vr * (1 - min 1 (V * 50)) + V * 20 * chop + 1 / 100)
            then "institutional" else "retail"⟩ := by
  have hi : 0 ≤ vr * (1 - min 1 (V * 50)) :=
    mul_nonneg hvr (sub_nonneg.mpr (min_le_left 1 _))
  have hr : 0 ≤ V * 20 * chop := mul_nonneg (by linarith) hchop
  have htot : (0 : ℚ) < vr * (1 - min 1 (V * 50)) + V * 20 * chop + 1 / 100 := by
    linarith
  simp only [PyFloat.mul_finite, pymin1_finite, PyFloat.sub_finite,
    PyFloat.add_finite]
  simp only [PyFloat.div_finite _ _ htot.ne', PyFloat.lt_finite,
    decide_eq_true_eq]
  rfl

/-- Under strictly positive closes (so pct_change never divides by zero) and
nonnegative volumes, the float-semantics model of
`estimate_institutional_activity` computes no special value at all and
agrees exactly with the exact-arithmetic model. -/
theorem estimate_float_eq_floatify (fsqrt : ℚ → ℚ) (df : List Bar)
    (hs : ∀ q : ℚ, 0 ≤ q → 0 ≤ fsqrt q) (hv : ∀ b ∈ df, 0 ≤ b.volume)
    (hc : ∀ b ∈ df, 0 < b.close) :
    estimate_institutional_activity_float fsqrt df =
      floatify (estimate_institutional_activity fsqrt df) := by
  by_cases hlen : df.length < 10
  · unfold estimate_institutional_activity_float estimate_institutional_activity
    rw [if_pos hlen, if_pos hlen]
    rfl
  · unfold estimate_institutional_activity_float estimate_institutional_activity
    rw [if_neg hlen, if_neg hlen]
    simp only []
    have hcl : ∀ c ∈ df.map Bar.close, c ≠ 0 := by
      intro c hcmem
      rcases List.mem_map.mp hcmem with ⟨b, hb, rfl⟩
      exact (hc b hb).ne'
    have hret : dropnaF (pctChangeF (df.map Bar.close)) =
        (pctChange (df.map Bar.close)).map PyFloat.finite := by
      rw [pctChangeF_eq_map _ hcl, dropnaF_map_finite]
    rw [hret, List.length_map]
    have hr5 : 5 ≤ (pctChange (df.map Bar.close)).length := by
      have hplen := pctChange_length (df.map Bar.close)
      rw [List.length_map] at hplen
      omega
    rw [if_pos hr5, if_pos hr5]
    have hl2 : 2 ≤ (pandasTail (pctChange (df.map Bar.close)) 5).length := by
      simp only [pandasTail, List.length_drop]
      omega
    rw [pandasTail_map PyFloat.finite (pctChange (df.map Bar.close)) 5,
      sampleStdF_map_finite fsqrt _ hl2]
    refine flow_float_finish _ _ _ ?_ ?_ ?_
    · split
      · next havg =>
        apply div_nonneg _ havg.le
        apply npMean_nonneg
        intro x hx
        have hx' : x ∈ df.map Bar.volume := List.mem_of_mem_drop hx
        rcases List.mem_map.mp hx' with ⟨b, hb, rfl⟩
        exact hv b hb
      · norm_num
    · exact hs _ (sampleVar_nonneg _)
    · positivity

/-- A 10-bar series with nonnegative (constant) volumes whose sixth close is
zero: pct_change divides by that zero close. -/
def flow_zero_close_series : List Bar :=
  [⟨1, 1, 1, 1, 1000⟩, ⟨1, 1, 1, 1, 1000⟩, ⟨1, 1, 1, 1, 1000⟩, ⟨1, 1, 1, 1, 1000⟩,
    ⟨1, 1, 1, 1, 1000⟩, ⟨0, 1, 0, 0, 1000⟩, ⟨1, 1, 0, 1, 1000⟩, ⟨1, 1, 1, 1, 1000⟩,
    ⟨1, 1, 1, 1, 1000⟩, ⟨1, 1, 1, 1, 1000⟩]

unseal Rat.mul Rat.inv Rat.add Rat.sub in
/-- C10 counterexample: on a 10-bar series with nonnegative volumes but a
zero interior close, pct_change produces +inf (1/0), which `dropna` keeps,
the 5-bar rolling standard deviation of a window containing inf is NaN, and
although Python's `min(1, NaN)` returns 1 (making the institutional signal a
finite 0), the retail signal and hence the normalizing total are NaN, so
both normalized scores are NaN: in particular the retail score is not
nonnegative (every IEEE comparison with NaN is false), and `NaN > NaN`
being false makes the dominant label "retail". -/
theorem estimate_institutional_activity_zero_close_nan :
    (estimate_institutional_activity_float id
        flow_zero_close_series).institutional_score = PyFloat.nan ∧
      (estimate_institutional_activity_float id
          flow_zero_close_series).retail_score = PyFloat.nan ∧
      PyFloat.le (.finite 0)
          (estimate_institutional_activity_float id
            flow_zero_close_series).retail_score = false ∧
      (estimate_institutional_activity_float id flow_zero_close_series).dominant =
        "retail" := by
  decide

/-- C10 (amended): in float semantics, for every OHLCV series with
nonnegative volumes and strictly positive closes,
`estimate_institutional_activity` returns the exact neutral record
(0.5, 0.5, "unknown") below 10 bars, and otherwise two finite nonnegative
scores summing to strictly less than 1, with `dominant = "institutional"`
exactly when the institutional score exceeds the retail score.  (Without
the positive-closes restriction the conclusion fails: see the zero-close
NaN counterexample above.) -/
theorem estimate_institutional_activity_float_spec (fsqrt : ℚ → ℚ)
    (df : List Bar) (hs : ∀ q : ℚ, 0 ≤ q → 0 ≤ fsqrt q)
    (hv : ∀ b ∈ df, 0 ≤ b.volume) (hc : ∀ b ∈ df, 0 < b.close) :
    (df.length < 10 →
        estimate_institutional_activity_float fsqrt df =
          ⟨.finite (1 / 2), .finite (1 / 2), "unknown"⟩) ∧
      (10 ≤ df.length →
        ∃ i r : ℚ,
          (estimate_institutional_activity_float fsqrt df).institutional_score =
              .finite i ∧
            (estimate_institutional_activity_float fsqrt df).retail_score =
              .finite r ∧
            0 ≤ i ∧ 0 ≤ r ∧ i + r < 1 ∧
            ((estimate_institutional_activity_float fsqrt df).dominant =
                "institutional" ↔ r < i)) := by
  have heq := estimate_float_eq_floatify fsqrt df hs hv hc
  have hq := estimate_institutional_activity_spec fsqrt df hs hv
  constructor
  · intro hlt
    rw [heq, hq.1 hlt]
    rfl
  · intro hge
    obtain ⟨h1, h2, h3, h4⟩ := hq.2 hge
    exact ⟨(estimate_institutional_activity fsqrt df).institutional_score,
      (estimate_institutional_activity fsqrt df).retail_score,
      by rw [heq]; rfl, by rw [heq]; rfl, h1, h2, h3, by rw [heq]; exact h4⟩

/-- C10 witness: a concrete 10-bar series with nonnegative volumes and
positive closes, with the square root instantiated by the identity, which
preserves nonnegativity. -/
theorem estimate_institutional_activity_float_spec_witness :
    (∀ q : ℚ, 0 ≤ q → 0 ≤ id q) ∧
      (∀ b ∈ (List.replicate 10 (⟨100, 105, 95, 102, 1000⟩ : Bar)), 0 ≤ b.volume) ∧
      (∀ b ∈ (List.replicate 10 (⟨100, 105, 95, 102, 1000⟩ : Bar)), 0 < b.close) ∧
      (10 ≤ (List.replicate 10 (⟨100, 105, 95, 102, 1000⟩ : Bar)).length →
        ∃ i r : ℚ,
          (estimate_institutional_activity_float id
              (List.replicate 10 (⟨100, 105, 95, 102, 1000⟩ : Bar))).institutional_score =
              .finite i ∧
            (estimate_institutional_activity_float id
                (List.replicate 10 (⟨100, 105, 95, 102, 1000⟩ : Bar))).retail_score =
              .finite r ∧
            0 ≤ i ∧ 0 ≤ r ∧ i + r < 1 ∧
            ((estimate_institutional_activity_float id
                  (List.replicate 10 (⟨100, 105, 95, 102, 1000⟩ : Bar))).dominant =
                "institutional" ↔ r < i)) :=
  ⟨fun _ hq => hq, by decide, by decide,
    (estimate_institutional_activity_float_spec id
      (List.replicate 10 (⟨100, 105, 95, 102, 1000⟩ : Bar))
      (fun _ hq => hq) (by decide) (by decide)).2⟩
